import Mathlib

/-!
Verification development for the jobs_crawler repository.

The development shallowly embeds the algorithmic core of the repository:
the relative time parsers `parse_posted_time` of
`src/crawler/itviecCrawler.py` and `src/crawler/linkedinCrawler.py`, the
deduplication hashes `generate_job_hash` of the same files, the internal
hash and duplicate tracking of `src/utils/async_job_analyzer.py`, the key
pool `src/utils/api_key_manager.py`, and the key-rotating retry loops of
`src/utils/analyze_job.py` and `src/utils/getEmbedding.py`.

Strings are modelled as `List Char`; the ASCII fragments of Python's
`str.lower`, `str.strip`, `\d`, and `\s` are embedded directly (the
repository only feeds ASCII scraper text and ASCII literals through these
paths).  A Python datetime is modelled at minute resolution: the code only
ever subtracts whole minutes/hours/days/weeks, and subtracting whole
minutes can never change which calendar date a timestamp with seconds
falls on, so the seconds/microseconds fields are irrelevant to every
observable output.  A raised Python exception is modelled as `none`.
-/

set_option maxRecDepth 10000

/-! ## Character classes (ASCII fragments of Python's str methods and re classes) -/

/-- ASCII decimal digit, the `\d` class on the repository's inputs. -/
def isDigitC (c : Char) : Bool := 48 ≤ c.toNat && c.toNat ≤ 57

/-- ASCII whitespace: the characters Python's `str.strip` removes and `\s` matches. -/
def isWSC (c : Char) : Bool := c.toNat = 32 || (9 ≤ c.toNat && c.toNat ≤ 13)

/-- Characters accepted by the separator class `[\/\-\s]` of the literal date pattern. -/
def isSepC (c : Char) : Bool := c.toNat = 47 || c.toNat = 45 || isWSC c

/-- ASCII lowercasing of one character, the action of Python's `str.lower`. -/
def lowerC (c : Char) : Char :=
  if 65 ≤ c.toNat && c.toNat ≤ 90 then Char.ofNat (c.toNat + 32) else c

/-- Python's `str.lower` on a character list. -/
def pyLowerL (l : List Char) : List Char := l.map lowerC

/-- Python's `str.strip()` (no argument): remove whitespace from both ends. -/
def stripL (l : List Char) : List Char :=
  ((l.dropWhile isWSC).reverse.dropWhile isWSC).reverse

/-- Decides whether the second list starts with the first (`str.startswith`). -/
def startsWithL : List Char → List Char → Bool
  | [], _ => true
  | _ :: _, [] => false
  | p :: ps, c :: cs => p == c && startsWithL ps cs

/-- Python's substring test `pat in s`. -/
def containsSub (pat : List Char) : List Char → Bool
  | [] => startsWithL pat []
  | c :: cs => startsWithL pat (c :: cs) || containsSub pat cs

/-- Numeric value of an ASCII digit character. -/
def digitVal (c : Char) : Nat := c.toNat - 48

/-- Python's `int()` on a nonempty string of ASCII digits. -/
def digitsVal (l : List Char) : Nat := l.foldl (fun a c => 10 * a + digitVal c) 0

/-- Python's `str.lower` at the `String` level. -/
def pyLower (s : String) : String := String.mk (pyLowerL s.data)

/-- Python's `str.strip()` at the `String` level. -/
def pyStrip (s : String) : String := String.mk (stripL s.data)

/-! ## Calendar model (the fragment of Python's datetime the parsers use) -/

/-- A resolved calendar date, as produced by the parsers before `strftime`. -/
structure Date where
  year : Nat
  month : Nat
  day : Nat
deriving DecidableEq, Repr

/-- A Python `datetime` at minute resolution (see the header comment: the
seconds and microseconds of the reference can never change any output of
the embedded functions). -/
structure DT where
  year : Nat
  month : Nat
  day : Nat
  hour : Nat
  minute : Nat
deriving DecidableEq, Repr

/-- Calendar date of a datetime. -/
def DT.date (t : DT) : Date := ⟨t.year, t.month, t.day⟩

/-- The Gregorian leap-year rule exactly as both crawlers write it:
`(y % 4 == 0 and y % 100 != 0) or y % 400 == 0`. -/
def isLeapI (y : Int) : Bool := (y % 4 == 0 && y % 100 != 0) || y % 400 == 0

/-- Number of days of month `m` in year `y`. -/
def daysInMonthI (y : Int) (m : Nat) : Nat :=
  if m = 2 then (if isLeapI y then 29 else 28)
  else if m = 4 ∨ m = 6 ∨ m = 9 ∨ m = 11 then 30
  else 31

/-- Python's `datetime(year, month, day)` constructor: `some` on a valid
proleptic Gregorian date with `1 <= year <= 9999`, `none` when Python
raises `ValueError`. -/
def pyDate (y m d : Int) : Option Date :=
  if 1 ≤ y ∧ y ≤ 9999 ∧ 1 ≤ m ∧ m ≤ 12 ∧ 1 ≤ d ∧ d ≤ (daysInMonthI y m.toNat : Int) then
    some ⟨y.toNat, m.toNat, d.toNat⟩
  else none

/-- Validity of a datetime in the embedded model. -/
def validDT (t : DT) : Bool :=
  1 ≤ t.year && t.year ≤ 9999 && 1 ≤ t.month && t.month ≤ 12 &&
    1 ≤ t.day && t.day ≤ daysInMonthI (t.year : Int) t.month && t.hour ≤ 23 && t.minute ≤ 59

/-- Days before year `y` counted from 0001-01-01 (proleptic Gregorian). -/
def daysBeforeYear (y : Nat) : Nat :=
  365 * (y - 1) + (y - 1) / 4 - (y - 1) / 100 + (y - 1) / 400

/-- Days before month `m` inside year `y`. -/
def daysBeforeMonth (y : Nat) (m : Nat) : Nat :=
  let base :=
    match m with
    | 1 => 0 | 2 => 31 | 3 => 59 | 4 => 90 | 5 => 120 | 6 => 151
    | 7 => 181 | 8 => 212 | 9 => 243 | 10 => 273 | 11 => 304 | _ => 334
  if 3 ≤ m ∧ isLeapI (y : Int) then base + 1 else base

/-- Zero-based day count of a civil date from 0001-01-01. -/
def daysFromCivil (y m d : Nat) : Nat := daysBeforeYear y + daysBeforeMonth y m + (d - 1)

/-- Inverse of `daysFromCivil` (the standard era/day-of-era civil-from-days
computation, shifted so that day 0 is 0001-01-01). -/
def civilFromDays (n : Nat) : Nat × Nat × Nat :=
  let z : Int := (n : Int) + 306
  let era := z / 146097
  let doe := z - era * 146097
  let yoe := (doe - doe / 1460 + doe / 36524 - doe / 146096) / 365
  let y0 := yoe + era * 400
  let doy := doe - (365 * yoe + yoe / 4 - yoe / 100)
  let mp := (5 * doy + 2) / 153
  let d := doy - (153 * mp + 2) / 5 + 1
  let m := if mp < 10 then mp + 3 else mp - 9
  let y := if m ≤ 2 then y0 + 1 else y0
  (y.toNat, m.toNat, d.toNat)

/-- Minutes of a datetime since 0001-01-01 00:00. -/
def toMinutes (t : DT) : Nat :=
  daysFromCivil t.year t.month t.day * 1440 + t.hour * 60 + t.minute

/-- Datetime of a minute count since 0001-01-01 00:00. -/
def fromMinutes (n : Nat) : DT :=
  let c := civilFromDays (n / 1440)
  ⟨c.1, c.2.1, c.2.2, n % 1440 / 60, n % 1440 % 60⟩

/-- Python's `current_date - timedelta(...)` for a whole number of minutes:
`none` models the `OverflowError` raised when the result would fall before
`datetime.min` (0001-01-01). -/
def subMinutes (t : DT) (k : Nat) : Option DT :=
  if k ≤ toMinutes t then some (fromMinutes (toMinutes t - k)) else none

/-! ## The month rollover loop shared by both crawlers

Lines 103-109 of `itviecCrawler.py` (and 73-79 of `linkedinCrawler.py`):
`month -= N; while month <= 0: month += 12; year -= 1`.  The loop runs at
most `(1 - month).toNat` times (each pass adds 12), so that fuel makes the
structural recursion below compute exactly the loop's result. -/

def rolloverAux : Nat → Int → Int → Int × Int
  | 0, y, m => (y, m)
  | fuel + 1, y, m => if m ≤ 0 then rolloverAux fuel (y - 1) (m + 12) else (y, m)

/-- Year/month after the crawlers' `while month <= 0` rollover loop. -/
def rollover (y m : Int) : Int × Int := rolloverAux (1 - m).toNat y m

/-! ## Deterministic equivalents of the re patterns

`re.search` scans candidate start positions left to right and at each
position runs the pattern with backtracking.  For the three pattern
families below the backtracking is vacuous, which lets each be embedded as
a deterministic function; the comments at each spot justify the vacuity.
-/

/-- Tail of the unit patterns `(\d+)\s*UNIT[s]?\s*ago` after the digit
group: skip `\s*`, expect the unit word, optionally one `'s'`, skip `\s*`,
expect `ago`.  Greedy `\s*` cannot steal a letter, and consuming an
available `'s'` is never wrong: if `[s]?` consumes `'s'` and the rest
fails, the non-consuming alternative immediately needs `ago` at a
position holding `'s'` and fails as well. -/
def matchAfterDigits (unit : List Char) (rest : List Char) : Bool :=
  let r1 := rest.dropWhile isWSC
  if startsWithL unit r1 then
    let r2 := r1.drop unit.length
    let r3 := match r2 with
      | 's' :: tl => tl
      | _ => r2
    startsWithL ("ago".data) (r3.dropWhile isWSC)
  else false

/-- `re.search` for `(\d+)\s*UNIT[s]?\s*ago`, returning the digit group.
A match can only start on a digit, and `(\d+)` greedily takes the whole
digit run: shortening it only exposes another digit where `\s*`/the unit
word expect whitespace or a letter, so no backtracking into the group can
succeed, and every start position inside one digit run agrees with the
run's start. -/
def searchUnit (unit : List Char) : List Char → Option (List Char)
  | [] => none
  | c :: cs =>
    if isDigitC c then
      if matchAfterDigits unit ((c :: cs).dropWhile isDigitC) then
        some ((c :: cs).takeWhile isDigitC)
      else searchUnit unit cs
    else searchUnit unit cs

/-- The literal date pattern `(\d{1,2})[\/\-\s](\d{1,2})[\/\-\s](\d{2,4})`
attempted at one start position, returning the three groups.  When a digit
run is 3 or more long the position cannot match: the greedy 2-digit group
is followed by a third digit where the separator class (which contains no
digits) must match, and shortening the group only exposes another digit;
the same argument applies to the month group.  The year group `\d{2,4}`
ends the pattern, so it greedily takes up to 4 digits and needs at least
2. -/
def dateMatchAt (l : List Char) : Option (List Char × List Char × List Char) :=
  let run1 := l.takeWhile isDigitC
  if run1.length = 1 ∨ run1.length = 2 then
    match l.drop run1.length with
    | s1 :: rest2 =>
      if isSepC s1 then
        let run2 := rest2.takeWhile isDigitC
        if run2.length = 1 ∨ run2.length = 2 then
          match rest2.drop run2.length with
          | s2 :: rest3 =>
            if isSepC s2 then
              let run3 := rest3.takeWhile isDigitC
              if 2 ≤ run3.length then some (run1, run2, run3.take 4) else none
            else none
          | [] => none
        else none
      else none
    | [] => none
  else none

/-- `re.search` for the literal date pattern: leftmost start position that
matches. -/
def dateSearch : List Char → Option (List Char × List Char × List Char)
  | [] => none
  | c :: cs =>
    match dateMatchAt (c :: cs) with
    | some r => some r
    | none => dateSearch cs

/-! ## The two relative time parsers -/

/-- Months branch shared verbatim by both crawlers
(`itviecCrawler.py:97-129`, `linkedinCrawler.py:68-94`): roll the month
back, try the reference day, and on `ValueError` clamp February by the
leap rule and other months to 30 or 31 days.  `none` models the uncaught
`ValueError` re-raised when even the clamped construction is invalid
(target year outside 1..9999). -/
def monthsBack (ref : DT) (n : Nat) : Option Date :=
  let r := rollover (ref.year : Int) ((ref.month : Int) - (n : Int))
  let y := r.1
  let m := r.2
  match pyDate y m (ref.day : Int) with
  | some dt => some dt
  | none =>
    if m = 2 then
      (if isLeapI y then pyDate y 2 29 else pyDate y 2 28)
    else if m = 4 ∨ m = 6 ∨ m = 9 ∨ m = 11 then pyDate y m 30
    else pyDate y m 31

/-- Years branch of both crawlers (`itviecCrawler.py:131-141`): subtract the
year count; on `ValueError` retry with day 28; `none` models the uncaught
second `ValueError`. -/
def yearsBack (ref : DT) (n : Nat) : Option Date :=
  match pyDate ((ref.year : Int) - (n : Int)) (ref.month : Int) (ref.day : Int) with
  | some dt => some dt
  | none => pyDate ((ref.year : Int) - (n : Int)) (ref.month : Int) 28

/-- Text cleanup of `itviecCrawler.parse_posted_time` (lines 31-34):
lowercase, strip, drop a leading `posted` and strip again. -/
def cleanText (cs : List Char) : List Char :=
  let t := stripL (pyLowerL cs)
  if startsWithL ("posted".data) t then stripL (t.drop 6) else t

/-- Relative-unit cascade of `itviecCrawler.parse_posted_time`
(lines 69-144): minutes, hours, days, weeks, months, years, then the
reference-date fallback. -/
def itviecRelative (t : List Char) (ref : DT) : Option Date :=
  match searchUnit ("minute".data) t with
  | some g => (subMinutes ref (digitsVal g)).map DT.date
  | none =>
  match searchUnit ("hour".data) t with
  | some g => (subMinutes ref (60 * digitsVal g)).map DT.date
  | none =>
  match searchUnit ("day".data) t with
  | some g => (subMinutes ref (1440 * digitsVal g)).map DT.date
  | none =>
  match searchUnit ("week".data) t with
  | some g => (subMinutes ref (10080 * digitsVal g)).map DT.date
  | none =>
  match searchUnit ("month".data) t with
  | some g => monthsBack ref (digitsVal g)
  | none =>
  match searchUnit ("year".data) t with
  | some g => yearsBack ref (digitsVal g)
  | none => some ref.date

/-- `parse_posted_time` of `itviecCrawler.py` at the calendar-date level
(everything before the final `strftime`).  `none` models an uncaught
exception. -/
def itviecResolve (cs : List Char) (ref : DT) : Option Date :=
  if cs.isEmpty then some ref.date
  else
    let t := cleanText cs
    if containsSub ("today".data) t || containsSub ("just now".data) t || t.isEmpty then
      some ref.date
    else if containsSub ("yesterday".data) t then (subMinutes ref 1440).map DT.date
    else
      match dateSearch t with
      | some (dg, mg, yg) =>
        let yv := digitsVal yg
        let y : Int := if yg.length = 2 then (if yv < 50 then 2000 + yv else 1900 + yv) else yv
        match pyDate y (digitsVal mg : Int) (digitsVal dg : Int) with
        | some dt => some dt
        | none => itviecRelative t ref
      | none => itviecRelative t ref

/-- Relative-unit cascade of `linkedinCrawler.parse_posted_time`
(lines 56-108): days, weeks, months, years, then the fallback. -/
def linkedinRelative (t : List Char) (ref : DT) : Option Date :=
  match searchUnit ("day".data) t with
  | some g => (subMinutes ref (1440 * digitsVal g)).map DT.date
  | none =>
  match searchUnit ("week".data) t with
  | some g => (subMinutes ref (10080 * digitsVal g)).map DT.date
  | none =>
  match searchUnit ("month".data) t with
  | some g => monthsBack ref (digitsVal g)
  | none =>
  match searchUnit ("year".data) t with
  | some g => yearsBack ref (digitsVal g)
  | none => some ref.date

/-- `parse_posted_time` of `linkedinCrawler.py` at the calendar-date
level: no `posted` stripping and no literal date pattern; hours and
minutes are handled by the substring indicators of line 41. -/
def linkedinResolve (cs : List Char) (ref : DT) : Option Date :=
  if cs.isEmpty then some ref.date
  else
    let t := stripL (pyLowerL cs)
    if containsSub ("today".data) t || containsSub ("just now".data) t ||
        containsSub ("hours ago".data) t || containsSub ("minutes ago".data) t || t.isEmpty then
      some ref.date
    else if containsSub ("yesterday".data) t then (subMinutes ref 1440).map DT.date
    else linkedinRelative t ref

/-- Zero-padded decimal rendering used by `strftime("%Y-%m-%d")`. -/
def padZeros (w : Nat) (n : Nat) : List Char :=
  let ds := Nat.toDigits 10 n
  List.replicate (w - ds.length) '0' ++ ds

/-- `date.strftime("%Y-%m-%d")`. -/
def fmtDate (d : Date) : String :=
  String.mk (padZeros 4 d.year ++ '-' :: (padZeros 2 d.month ++ '-' :: padZeros 2 d.day))

/-- `parse_posted_time(posted_text, current_date)` of `itviecCrawler.py`:
`some` of the formatted date, `none` when the Python function raises. -/
def Itviec.parse_posted_time (posted_text : String) (current_date : DT) : Option String :=
  (itviecResolve posted_text.data current_date).map fmtDate

/-- `parse_posted_time(posted_text, current_date)` of `linkedinCrawler.py`. -/
def LinkedIn.parse_posted_time (posted_text : String) (current_date : DT) : Option String :=
  (linkedinResolve posted_text.data current_date).map fmtDate

/-! ## Byte-level hashing (`hashlib.sha256` / `hashlib.md5`)

Machine words are `Nat` values reduced by `% 2 ^ 32`; a byte string is a
`List Nat` of values below 256.  Only determinism of the digests is used
in the proofs, but the algorithms are embedded in full so that the dedup
keys are the functions the code computes. -/

/-- `str.encode('utf-8')` for one character. -/
def utf8Encode (c : Char) : List Nat :=
  let n := c.toNat
  if n < 128 then [n]
  else if n < 2048 then [192 + n / 64, 128 + n % 64]
  else if n < 65536 then [224 + n / 4096, 128 + n / 64 % 64, 128 + n % 64]
  else [240 + n / 262144, 128 + n / 4096 % 64, 128 + n / 64 % 64, 128 + n % 64]

/-- `str.encode('utf-8')` for a string. -/
def utf8Bytes (l : List Char) : List Nat := l.flatMap utf8Encode

/-- Reduction to a 32-bit word. -/
def w32 (n : Nat) : Nat := n % 4294967296

/-- Right rotation of a 32-bit word: low bits move to the top, so for
`x < 2 ^ 32` the two parts are disjoint and the rotation is their sum. -/
def rotr32 (x n : Nat) : Nat := x / 2 ^ n + x % 2 ^ n * 2 ^ (32 - n)

/-- Left rotation of a 32-bit word. -/
def rotl32 (x n : Nat) : Nat := rotr32 x (32 - n)

/-- Big-endian 4-byte words of a byte list. -/
def wordsBE : List Nat → List Nat
  | b0 :: b1 :: b2 :: b3 :: rest => (((b0 * 256 + b1) * 256 + b2) * 256 + b3) :: wordsBE rest
  | _ => []

/-- Little-endian 4-byte words of a byte list. -/
def wordsLE : List Nat → List Nat
  | b0 :: b1 :: b2 :: b3 :: rest => (((b3 * 256 + b2) * 256 + b1) * 256 + b0) :: wordsLE rest
  | _ => []

/-- Big-endian 8-byte rendering of a bit length. -/
def lenBytesBE (n : Nat) : List Nat :=
  [n / 2 ^ 56 % 256, n / 2 ^ 48 % 256, n / 2 ^ 40 % 256, n / 2 ^ 32 % 256,
   n / 2 ^ 24 % 256, n / 2 ^ 16 % 256, n / 2 ^ 8 % 256, n % 256]

/-- Little-endian 8-byte rendering of a bit length. -/
def lenBytesLE (n : Nat) : List Nat :=
  [n % 256, n / 2 ^ 8 % 256, n / 2 ^ 16 % 256, n / 2 ^ 24 % 256,
   n / 2 ^ 32 % 256, n / 2 ^ 40 % 256, n / 2 ^ 48 % 256, n / 2 ^ 56 % 256]

/-- Merkle-Damgard padding: a `0x80` byte, zeros to 56 mod 64, then the
8-byte bit length (big- or little-endian per `be`). -/
def padMessage (be : Bool) (msg : List Nat) : List Nat :=
  let L := msg.length
  let zeros := (55 + 64 - L % 64) % 64
  msg ++ 128 :: List.replicate zeros 0 ++ (if be then lenBytesBE (8 * L) else lenBytesLE (8 * L))

/-- SHA-256 round constants (FIPS 180-4), written in decimal: the first 32
bits of the fractional parts of the cube roots of the first 64 primes. -/
def sha256K : List Nat :=
  [1116352408, 1899447441, 3049323471, 3921009573, 961987163,
   1508970993, 2453635748, 2870763221, 3624381080, 310598401,
   607225278, 1426881987, 1925078388, 2162078206, 2614888103,
   3248222580, 3835390401, 4022224774, 264347078, 604807628,
   770255983, 1249150122, 1555081692, 1996064986, 2554220882,
   2821834349, 2952996808, 3210313671, 3336571891, 3584528711,
   113926993, 338241895, 666307205, 773529912, 1294757372,
   1396182291, 1695183700, 1986661051, 2177026350, 2456956037,
   2730485921, 2820302411, 3259730800, 3345764771, 3516065817,
   3600352804, 4094571909, 275423344, 430227734, 506948616,
   659060556, 883997877, 958139571, 1322822218, 1537002063,
   1747873779, 1955562222, 2024104815, 2227730452, 2361852424,
   2428436474, 2756734187, 3204031479, 3329325298]

/-- SHA-256 initial hash state (FIPS 180-4), in decimal: the first 32 bits
of the fractional parts of the square roots of the first 8 primes. -/
def sha256H0 : List Nat :=
  [1779033703, 3144134277, 1013904242, 2773480762, 1359893119,
   2600822924, 528734635, 1541459225]

/-- Message-schedule extension: grow the 16 chunk words to `total` words. -/
def sha256Extend (total : Nat) (ws : List Nat) : List Nat :=
  match total with
  | 0 => ws
  | total + 1 =>
    if ws.length < 16 then ws
    else
      let i := ws.length
      let x15 := ws.getD (i - 15) 0
      let x2 := ws.getD (i - 2) 0
      let s0 := rotr32 x15 7 ^^^ rotr32 x15 18 ^^^ x15 / 2 ^ 3
      let s1 := rotr32 x2 17 ^^^ rotr32 x2 19 ^^^ x2 / 2 ^ 10
      sha256Extend total (ws ++ [w32 (ws.getD (i - 16) 0 + s0 + ws.getD (i - 7) 0 + s1)])

/-- One SHA-256 compression round. -/
def sha256Round (ws : List Nat) (i : Nat) (st : List Nat) : List Nat :=
  match st with
  | [a, b, c, d, e, f, g, h] =>
    let s1 := rotr32 e 6 ^^^ rotr32 e 11 ^^^ rotr32 e 25
    let ch := e &&& f ^^^ (e ^^^ 4294967295) &&& g
    let t1 := w32 (h + s1 + ch + sha256K.getD i 0 + ws.getD i 0)
    let s0 := rotr32 a 2 ^^^ rotr32 a 13 ^^^ rotr32 a 22
    let mj := a &&& b ^^^ a &&& c ^^^ b &&& c
    let t2 := w32 (s0 + mj)
    [w32 (t1 + t2), a, b, c, w32 (d + t1), e, f, g]
  | st => st

/-- Compress one 64-byte chunk into the running state. -/
def sha256Chunk (st : List Nat) (chunk : List Nat) : List Nat :=
  let ws := sha256Extend 48 (wordsBE chunk)
  let f := (List.range 64).foldl (fun s i => sha256Round ws i s) st
  List.zipWith (fun a b => w32 (a + b)) st f

/-- Fold the compression over successive 64-byte chunks; `fuel` bounds the
chunk count. -/
def sha256Chunks (fuel : Nat) (st : List Nat) (rest : List Nat) : List Nat :=
  match fuel with
  | 0 => st
  | fuel + 1 =>
    match rest with
    | [] => st
    | rest => sha256Chunks fuel (sha256Chunk st (rest.take 64)) (rest.drop 64)

/-- One hexadecimal digit, lowercase as `hexdigest` produces. -/
def hexDigit (n : Nat) : Char := if n < 10 then Char.ofNat (48 + n) else Char.ofNat (87 + n)

/-- Lowercase hexadecimal rendering of a 32-bit word, big-endian digit order. -/
def wordHex (w : Nat) : List Char :=
  [hexDigit (w / 2 ^ 28 % 16), hexDigit (w / 2 ^ 24 % 16), hexDigit (w / 2 ^ 20 % 16),
   hexDigit (w / 2 ^ 16 % 16), hexDigit (w / 2 ^ 12 % 16), hexDigit (w / 2 ^ 8 % 16),
   hexDigit (w / 2 ^ 4 % 16), hexDigit (w % 16)]

/-- `hashlib.sha256(bytes).hexdigest()`. -/
def sha256Hex (msg : List Nat) : String :=
  let padded := padMessage true msg
  let st := sha256Chunks (padded.length / 64) sha256H0 padded
  String.mk ((st.map wordHex).flatten)

/-- MD5 sine-table constants, rounds 1 to 4 in order (RFC 1321). -/
def md5K : List Nat :=
  [0xd76aa478, 0xe8c7b756, 0x242070db, 0xc1bdceee, 0xf57c0faf, 0x4787c62a, 0xa8304613, 0xfd469501,
   0x698098d8, 0x8b44f7af, 0xffff5bb1, 0x895cd7be, 0x6b901122, 0xfd987193, 0xa679438e, 0x49b40821,
   0xf61e2562, 0xc040b340, 0x265e5a51, 0xe9b6c7aa, 0xd62f105d, 0x02441453, 0xd8a1e681, 0xe7d3fbc8,
   0x21e1cde6, 0xc33707d6, 0xf4d50d87, 0x455a14ed, 0xa9e3e905, 0xfcefa3f8, 0x676f02d9, 0x8d2a4c8a,
   0xfffa3942, 0x8771f681, 0x6d9d6122, 0xfde5380c, 0xa4beea44, 0x4bdecfa9, 0xf6bb4b60, 0xbebfbc70,
   0x289b7ec6, 0xeaa127fa, 0xd4ef3085, 0x04881d05, 0xd9d4d039, 0xe6db99e5, 0x1fa27cf8, 0xc4ac5665,
   0xf4292244, 0x432aff97, 0xab9423a7, 0xfc93a039, 0x655b59c3, 0x8f0ccc92, 0xffeff47d, 0x85845dd1,
   0x6fa87e4f, 0xfe2ce6e0, 0xa3014314, 0x4e0811a1, 0xf7537e82, 0xbd3af235, 0x2ad7d2bb, 0xeb86d391]

/-- MD5 per-round left-rotation amounts (RFC 1321). -/
def md5S : List Nat :=
  [7, 12, 17, 22, 7, 12, 17, 22, 7, 12, 17, 22, 7, 12, 17, 22,
   5, 9, 14, 20, 5, 9, 14, 20, 5, 9, 14, 20, 5, 9, 14, 20,
   4, 11, 16, 23, 4, 11, 16, 23, 4, 11, 16, 23, 4, 11, 16, 23,
   6, 10, 15, 21, 6, 10, 15, 21, 6, 10, 15, 21, 6, 10, 15, 21]

/-- One MD5 operation (step `i` of a chunk). -/
def md5Round (ms : List Nat) (i : Nat) (st : List Nat) : List Nat :=
  match st with
  | [a, b, c, d] =>
    let fg : Nat × Nat :=
      if i < 16 then (b &&& c ||| (b ^^^ 4294967295) &&& d, i)
      else if i < 32 then (d &&& b ||| (d ^^^ 4294967295) &&& c, (5 * i + 1) % 16)
      else if i < 48 then (b ^^^ c ^^^ d, (3 * i + 5) % 16)
      else (c ^^^ (b ||| (d ^^^ 4294967295)), 7 * i % 16)
    let x := w32 (a + fg.1 + md5K.getD i 0 + ms.getD fg.2 0)
    [d, w32 (b + rotl32 x (md5S.getD i 0)), b, c]
  | st => st

/-- MD5 initial state (RFC 1321). -/
def md5H0 : List Nat := [0x67452301, 0xefcdab89, 0x98badcfe, 0x10325476]

/-- Compress one 64-byte chunk into the running MD5 state. -/
def md5Chunk (st : List Nat) (chunk : List Nat) : List Nat :=
  let ms := wordsLE chunk
  let f := (List.range 64).foldl (fun s i => md5Round ms i s) st
  List.zipWith (fun a b => w32 (a + b)) st f

/-- Fold the MD5 compression over successive 64-byte chunks. -/
def md5Chunks (fuel : Nat) (st : List Nat) (rest : List Nat) : List Nat :=
  match fuel with
  | 0 => st
  | fuel + 1 =>
    match rest with
    | [] => st
    | rest => md5Chunks fuel (md5Chunk st (rest.take 64)) (rest.drop 64)

/-- Lowercase hexadecimal rendering of a 32-bit word, little-endian byte order. -/
def wordHexLE (w : Nat) : List Char :=
  [hexDigit (w / 2 ^ 4 % 16), hexDigit (w % 16),
   hexDigit (w / 2 ^ 12 % 16), hexDigit (w / 2 ^ 8 % 16),
   hexDigit (w / 2 ^ 20 % 16), hexDigit (w / 2 ^ 16 % 16),
   hexDigit (w / 2 ^ 28 % 16), hexDigit (w / 2 ^ 24 % 16)]

/-- `hashlib.md5(bytes).hexdigest()`. -/
def md5Hex (msg : List Nat) : String :=
  let padded := padMessage false msg
  let st := md5Chunks (padded.length / 64) md5H0 padded
  String.mk ((st.map wordHexLE).flatten)

/-! ## Deduplication keys (`generate_job_hash` of both crawlers) -/

/-- Python truthiness of the optional `posted_date` argument: `None` and
the empty string are falsy. -/
def truthyStr : Option String → Bool
  | some d => d ≠ ""
  | none => false

/-- `generate_job_hash(title, company, posted_date)` of
`itviecCrawler.py:146-154`: SHA-256 hex digest of
`title.lower().strip() + "|" + company.lower().strip()`, with `"|" +
posted_date` appended when `posted_date` is truthy. -/
def Itviec.generate_job_hash (title company : String) (posted_date : Option String) : String :=
  let job_string :=
    if truthyStr posted_date then
      pyStrip (pyLower title) ++ "|" ++ pyStrip (pyLower company) ++ "|" ++ posted_date.getD ""
    else
      pyStrip (pyLower title) ++ "|" ++ pyStrip (pyLower company)
  sha256Hex (utf8Bytes job_string.data)

/-- `generate_job_hash` of `linkedinCrawler.py:110-118`: the same
normalisation, base string first, date appended when truthy. -/
def LinkedIn.generate_job_hash (title company : String) (posted_date : Option String) : String :=
  let base := pyStrip (pyLower title) ++ "|" ++ pyStrip (pyLower company)
  let job_string := if truthyStr posted_date then base ++ "|" ++ posted_date.getD "" else base
  sha256Hex (utf8Bytes job_string.data)

/-! ## AsyncJobAnalyzer duplicate tracking (`async_job_analyzer.py`) -/

/-- Python's `x or ""` applied to an optional string argument. -/
def orEmpty : Option String → String
  | some s => s
  | none => ""

/-- In-memory duplicate-tracking state of `AsyncJobAnalyzer`: the
`processed_hashes` set, modelled as the list of inserted members. -/
structure AsyncJobAnalyzer where
  processed_hashes : List String
deriving DecidableEq, Repr

/-- `AsyncJobAnalyzer.__init__`: `processed_hashes = set()`. -/
def AsyncJobAnalyzer.init : AsyncJobAnalyzer := ⟨[]⟩

/-- `generate_internal_hash` (`async_job_analyzer.py:39-60`):
`"internal_"` plus the first 16 hex characters of the MD5 of
`title.strip().lower() + "|" + company.strip().lower()`, `None` inputs
read as empty. -/
def AsyncJobAnalyzer.generate_internal_hash (job_title company : Option String) : String :=
  let title_clean := pyLower (pyStrip (orEmpty job_title))
  let company_clean := pyLower (pyStrip (orEmpty company))
  let hash_input := title_clean ++ "|" ++ company_clean
  "internal_" ++ String.mk ((md5Hex (utf8Bytes hash_input.data)).data.take 16)

/-- `is_duplicate` (`async_job_analyzer.py:62-74`): membership of the
internal hash in `processed_hashes`. -/
def AsyncJobAnalyzer.is_duplicate (a : AsyncJobAnalyzer) (job_title company : Option String) : Bool :=
  a.processed_hashes.contains (AsyncJobAnalyzer.generate_internal_hash job_title company)

/-- `mark_as_processed` (`async_job_analyzer.py:76-85`): insert the
internal hash into `processed_hashes`. -/
def AsyncJobAnalyzer.mark_as_processed (a : AsyncJobAnalyzer) (job_title company : Option String) :
    AsyncJobAnalyzer :=
  ⟨AsyncJobAnalyzer.generate_internal_hash job_title company :: a.processed_hashes⟩

/-! ## APIKeyManager (`api_key_manager.py`) -/

/-- The key pool: the loaded key list and the rotation cursor. -/
structure APIKeyManager where
  api_keys : List String
  current_index : Nat
deriving DecidableEq, Repr

/-- `load_keys` (`api_key_manager.py:27-39`) applied to the lines of the
key file: strip every line, keep the truthy (nonempty) ones; `none`
models the `ValueError` raised when nothing remains. -/
def load_keys (lines : List String) : Option (List String) :=
  let ks := (lines.map pyStrip).filter (fun s => s ≠ "")
  if ks = [] then none else some ks

/-- `APIKeyManager.__init__` on an already-read key file: keys from
`load_keys`, cursor starting at 0. -/
def APIKeyManager.construct (lines : List String) : Option APIKeyManager :=
  (load_keys lines).map (fun ks => ⟨ks, 0⟩)

/-- `get_current_key` (`api_key_manager.py:41-45`): raises (`none`) on an
empty pool, otherwise the key at the cursor (`none` also models the
IndexError of an out-of-range cursor, unreachable under the invariant). -/
def APIKeyManager.get_current_key (m : APIKeyManager) : Option String :=
  if m.api_keys.isEmpty then none else m.api_keys.get? m.current_index

/-- `next_key` (`api_key_manager.py:47-54`): advance the cursor modulo the
pool size and return the new current key with the new state. -/
def APIKeyManager.next_key (m : APIKeyManager) : Option (String × APIKeyManager) :=
  if m.api_keys.isEmpty then none
  else
    let m' : APIKeyManager := ⟨m.api_keys, (m.current_index + 1) % m.api_keys.length⟩
    (m'.get_current_key).map (fun k => (k, m'))

/-- The two operations a caller can perform on the pool. -/
inductive KeyOp
  | getCurrent
  | nextKey
deriving DecidableEq, Repr

/-- State transition of one operation (`get_current_key` reads only;
`next_key` advances the cursor). -/
def applyKeyOp (m : APIKeyManager) : KeyOp → APIKeyManager
  | KeyOp.getCurrent => m
  | KeyOp.nextKey =>
    if m.api_keys.isEmpty then m
    else ⟨m.api_keys, (m.current_index + 1) % m.api_keys.length⟩

/-- State after a sequence of operations. -/
def applyKeyOps (m : APIKeyManager) (ops : List KeyOp) : APIKeyManager :=
  ops.foldl applyKeyOp m

/-! ## The key-rotating retry loops

`_analyze_job_content_sync` (`analyze_job.py:36-114`) and `_get_embedding`
(`getEmbedding.py:5-44`).  The remote Gemini call is an external
collaborator, modelled as an oracle mapping the attempt ordinal to the
call's outcome.  Only the retry/rotation phase is embedded (through the
`break` on success / the default-dict returns); the JSON-extraction
continuation that follows a successful call in `analyze_job.py` is outside
every claim.  The embedding vector payload is a type parameter `α`: its
values (floats in the source) never influence the control flow beyond
emptiness. -/

/-- Outcome of one remote analysis call: response text, or a raised
exception with its message. -/
inductive CallOutcome
  | ok (text : String)
  | err (msg : String)
deriving DecidableEq, Repr

/-- Error classifier of `analyze_job.py:83-84`: the lowercased message
contains one of the credential/quota tokens. -/
def isApiKeyErrorAnalyze (msg : String) : Bool :=
  let m := pyLowerL msg.data
  containsSub ("api key".data) m || containsSub ("quota".data) m ||
    containsSub ("rate limit".data) m || containsSub ("permission".data) m ||
    containsSub ("unauthorized".data) m || containsSub ("authentication".data) m ||
    containsSub ("exhausted".data) m

/-- Error classifier of `getEmbedding.py:31-32`: the same list except that
the last token is `internal` instead of `exhausted`. -/
def isApiKeyErrorEmbed (msg : String) : Bool :=
  let m := pyLowerL msg.data
  containsSub ("api key".data) m || containsSub ("quota".data) m ||
    containsSub ("rate limit".data) m || containsSub ("permission".data) m ||
    containsSub ("unauthorized".data) m || containsSub ("authentication".data) m ||
    containsSub ("internal".data) m

/-- The all-`None` dictionary both error paths of
`_analyze_job_content_sync` return (`analyze_job.py:93-102` and 105-114). -/
structure AnalysisResult where
  company_infomation : Option String
  job_description : Option String
  job_requirements : Option String
  yoe : Option String
  salary : Option String
  job_expertise : Option String
  job_description_embedding : Option (List Int)
  job_requirements_embedding : Option (List Int)
deriving DecidableEq, Repr

/-- The default sentinel: every field `None`. -/
def defaultAnalysis : AnalysisResult := ⟨none, none, none, none, none, none, none, none⟩

/-- How the retry phase of `_analyze_job_content_sync` ends. -/
inductive AnalyzeOutcome
  | done (r : AnalysisResult)
  | gotText (text : String)
  | raised
deriving DecidableEq, Repr

/-- Result of the retry phase: how it ended, the final cursor position,
and the key indices attempted in order. -/
structure AnalyzeRes where
  outcome : AnalyzeOutcome
  finalIdx : Nat
  attempts : List Nat
deriving DecidableEq, Repr

/-- The `while retries < max_retries` loop of `analyze_job.py:57-114`.
`fuel = max_retries - retries` counts the remaining loop entries, so the
`retries < max_retries` re-check after an increment is `0 < fuel` at the
recursive call. -/
def analyzeLoop (oracle : Nat → CallOutcome) (n : Nat) : Nat → Nat → Nat → AnalyzeRes
  | 0, idx, _ => ⟨AnalyzeOutcome.raised, idx, []⟩
  | fuel + 1, idx, attempt =>
    match oracle attempt with
    | CallOutcome.ok text => ⟨AnalyzeOutcome.gotText text, idx, [idx]⟩
    | CallOutcome.err msg =>
      if isApiKeyErrorAnalyze msg then
        if 0 < fuel then
          let idx' := (idx + 1) % n
          let r := analyzeLoop oracle n fuel idx' (attempt + 1)
          ⟨r.outcome, r.finalIdx, idx :: r.attempts⟩
        else ⟨AnalyzeOutcome.done defaultAnalysis, idx, [idx]⟩
      else ⟨AnalyzeOutcome.done defaultAnalysis, idx, [idx]⟩

/-- Retry phase of `_analyze_job_content_sync` started on a key pool:
`get_current_key` raises on an empty pool; otherwise the loop runs with
`max_retries = len(api_keys)` from the pool's cursor. -/
def analyze_job_content_sync (oracle : Nat → CallOutcome) (mgr : APIKeyManager) : AnalyzeRes :=
  if mgr.api_keys.isEmpty then ⟨AnalyzeOutcome.raised, mgr.current_index, []⟩
  else analyzeLoop oracle mgr.api_keys.length mgr.api_keys.length mgr.current_index 0

/-- Outcome of one remote embedding call: a returned vector (possibly
reported absent, i.e. empty), or a raised exception. -/
inductive EmbedOutcome (α : Type)
  | ok (vals : List α)
  | err (msg : String)
deriving DecidableEq, Repr

/-- How `_get_embedding` ends: a vector (the empty list doubles as the
failure sentinel, exactly as in the source) or the implicit `None` of
running off the loop. -/
inductive EmbedResult (α : Type)
  | vector (vals : List α)
  | noneReturn
deriving DecidableEq, Repr

/-- Result of `_get_embedding`: the returned value, the final cursor
position, and the key indices attempted in order. -/
structure EmbedRes (α : Type) where
  result : EmbedResult α
  finalIdx : Nat
  attempts : List Nat
deriving DecidableEq, Repr

/-- The `while retries < max_retries` loop of `getEmbedding.py:12-44`: on
success return the values when nonempty and `[]` otherwise; on a
credential-classified error rotate while attempts remain, else return
`[]`; on any other error return `[]` at once. -/
def embedLoop (oracle : Nat → EmbedOutcome α) (n : Nat) : Nat → Nat → Nat → EmbedRes α
  | 0, idx, _ => ⟨EmbedResult.noneReturn, idx, []⟩
  | fuel + 1, idx, attempt =>
    match oracle attempt with
    | EmbedOutcome.ok vals =>
      if vals.isEmpty then ⟨EmbedResult.vector [], idx, [idx]⟩
      else ⟨EmbedResult.vector vals, idx, [idx]⟩
    | EmbedOutcome.err msg =>
      if isApiKeyErrorEmbed msg then
        if 0 < fuel then
          let idx' := (idx + 1) % n
          let r := embedLoop oracle n fuel idx' (attempt + 1)
          ⟨r.result, r.finalIdx, idx :: r.attempts⟩
        else ⟨EmbedResult.vector [], idx, [idx]⟩
      else ⟨EmbedResult.vector [], idx, [idx]⟩

/-- `_get_embedding` started on a key pool (`get_current_key` first, then
the loop with `max_retries = len(api_keys)`); an empty pool raises, which
the source does not reach because the manager construction forbids it. -/
def get_embedding (oracle : Nat → EmbedOutcome α) (mgr : APIKeyManager) : EmbedRes α :=
  if mgr.api_keys.isEmpty then ⟨EmbedResult.noneReturn, mgr.current_index, []⟩
  else embedLoop oracle mgr.api_keys.length mgr.api_keys.length mgr.current_index 0

/-- Classification of an analysis-call outcome as a credential/quota
error (a raised exception whose message the analyzer's classifier
accepts). -/
def credCallA (o : CallOutcome) : Bool :=
  match o with
  | CallOutcome.ok _ => false
  | CallOutcome.err m => isApiKeyErrorAnalyze m

/-- Classification of an embedding-call outcome as a credential/quota
error under the embedding client's classifier. -/
def credCallE : EmbedOutcome α → Bool
  | EmbedOutcome.ok _ => false
  | EmbedOutcome.err m => isApiKeyErrorEmbed m

/-! ## Helper lemmas -/

theorem char_toNat_ofNat (n : Nat) (h : n < 55296) : (Char.ofNat n).toNat = n := by
  simp [Char.ofNat, Nat.isValidChar, Char.ofNatAux, Char.toNat, UInt32.toNat, h,
    BitVec.toNat_ofNatLt]

theorem lowerC_toNat (c : Char) :
    (lowerC c).toNat = if 65 ≤ c.toNat ∧ c.toNat ≤ 90 then c.toNat + 32 else c.toNat := by
  by_cases h : 65 ≤ c.toNat ∧ c.toNat ≤ 90
  · have hv : c.toNat + 32 < 55296 := by omega
    simp [lowerC, h, char_toNat_ofNat _ hv]
  · simp [lowerC, h]

theorem lowerC_of_not_upper (c : Char) (h : ¬(65 ≤ c.toNat ∧ c.toNat ≤ 90)) : lowerC c = c := by
  simp [lowerC, h]

theorem isWSC_eq_true (c : Char) :
    isWSC c = true ↔ c.toNat = 32 ∨ (9 ≤ c.toNat ∧ c.toNat ≤ 13) := by
  simp [isWSC]

theorem isWSC_lowerC (c : Char) : isWSC (lowerC c) = isWSC c := by
  rw [Bool.eq_iff_iff, isWSC_eq_true, isWSC_eq_true, lowerC_toNat]
  by_cases h : 65 ≤ c.toNat ∧ c.toNat ≤ 90
  · simp only [if_pos h]
    omega
  · simp only [if_neg h]

theorem dropWhile_map_lowerC (l : List Char) :
    List.dropWhile isWSC (pyLowerL l) = pyLowerL (List.dropWhile isWSC l) := by
  unfold pyLowerL
  rw [List.dropWhile_map]
  rw [show (isWSC ∘ lowerC) = isWSC from funext isWSC_lowerC]

theorem stripL_pyLowerL (l : List Char) : stripL (pyLowerL l) = pyLowerL (stripL l) := by
  unfold stripL
  rw [dropWhile_map_lowerC l]
  rw [show (pyLowerL (List.dropWhile isWSC l)).reverse = pyLowerL (List.dropWhile isWSC l).reverse
    from (List.map_reverse _ _).symm]
  rw [dropWhile_map_lowerC _]
  exact (List.map_reverse _ _).symm

theorem pyStrip_pyLower (s : String) : pyStrip (pyLower s) = pyLower (pyStrip s) := by
  simp [pyStrip, pyLower, stripL_pyLowerL]

/-- Invariant-preservation core for C8: a sequence of operations never
touches the key list and keeps the cursor in range. -/
theorem applyKeyOps_invariant (ops : List KeyOp) :
    ∀ m : APIKeyManager, m.current_index < m.api_keys.length →
      (applyKeyOps m ops).api_keys = m.api_keys ∧
        (applyKeyOps m ops).current_index < m.api_keys.length := by
  induction ops with
  | nil => intro m h; exact ⟨rfl, h⟩
  | cons op ops ih =>
    intro m h
    have hpos : 0 < m.api_keys.length := Nat.lt_of_le_of_lt (Nat.zero_le _) h
    have hne : m.api_keys.isEmpty = false := by
      cases hk : m.api_keys with
      | nil => rw [hk] at hpos; exact absurd hpos (by simp)
      | cons a l => simp
    have step : (applyKeyOp m op).api_keys = m.api_keys ∧
        (applyKeyOp m op).current_index < m.api_keys.length := by
      cases op with
      | getCurrent => exact ⟨rfl, h⟩
      | nextKey =>
        simp [applyKeyOp, hne]
        exact Nat.mod_lt _ hpos
    have : applyKeyOps m (op :: ops) = applyKeyOps (applyKeyOp m op) ops := rfl
    rw [this]
    obtain ⟨hk, hi⟩ := ih (applyKeyOp m op) (by rw [step.1]; exact step.2)
    exact ⟨by rw [hk, step.1], by rw [step.1] at hi; exact hi⟩

/-- One-step unfolding of the analyzer loop. -/
theorem analyzeLoop_step (oracle : Nat → CallOutcome) (n fuel i a : Nat) :
    analyzeLoop oracle n (fuel + 1) i a =
      match oracle a with
      | CallOutcome.ok text => ⟨AnalyzeOutcome.gotText text, i, [i]⟩
      | CallOutcome.err msg =>
        if isApiKeyErrorAnalyze msg then
          if 0 < fuel then
            let r := analyzeLoop oracle n fuel ((i + 1) % n) (a + 1)
            ⟨r.outcome, r.finalIdx, i :: r.attempts⟩
          else ⟨AnalyzeOutcome.done defaultAnalysis, i, [i]⟩
        else ⟨AnalyzeOutcome.done defaultAnalysis, i, [i]⟩ := rfl

/-- One-step unfolding of the embedding loop. -/
theorem embedLoop_step {α : Type} (oracle : Nat → EmbedOutcome α) (n fuel i a : Nat) :
    embedLoop oracle n (fuel + 1) i a =
      match oracle a with
      | EmbedOutcome.ok vals =>
        if vals.isEmpty then ⟨EmbedResult.vector [], i, [i]⟩
        else ⟨EmbedResult.vector vals, i, [i]⟩
      | EmbedOutcome.err msg =>
        if isApiKeyErrorEmbed msg then
          if 0 < fuel then
            let r := embedLoop oracle n fuel ((i + 1) % n) (a + 1)
            ⟨r.result, r.finalIdx, i :: r.attempts⟩
          else ⟨EmbedResult.vector [], i, [i]⟩
        else ⟨EmbedResult.vector [], i, [i]⟩ := rfl

/-- Core induction for the all-credential-errors run of the analyzer loop:
with `fuel + 1` loop entries left and every call failing as a credential
error, the loop attempts exactly the cursor positions
`i, i+1, ..., i+fuel (mod n)` and ends in the default dictionary. -/
theorem analyzeLoop_allErr (fuel : Nat) :
    ∀ (oracle : Nat → CallOutcome) (n i a : Nat), i < n →
      (∀ t, credCallA (oracle t) = true) →
      analyzeLoop oracle n (fuel + 1) i a =
        ⟨AnalyzeOutcome.done defaultAnalysis, (i + fuel) % n,
          (List.range (fuel + 1)).map (fun j => (i + j) % n)⟩ := by
  induction fuel with
  | zero =>
    intro oracle n i a hi hcred
    have h := hcred a
    cases ho : oracle a with
    | ok t => rw [ho] at h; simp [credCallA] at h
    | err m =>
      rw [ho] at h
      simp only [credCallA] at h
      rw [analyzeLoop_step, ho]
      simp [h, List.range_succ, Nat.mod_eq_of_lt hi]
  | succ fuel ih =>
    intro oracle n i a hi hcred
    have h := hcred a
    cases ho : oracle a with
    | ok t => rw [ho] at h; simp [credCallA] at h
    | err m =>
      rw [ho] at h
      simp only [credCallA] at h
      have hn : 0 < n := Nat.lt_of_le_of_lt (Nat.zero_le _) hi
      have hi' : (i + 1) % n < n := Nat.mod_lt _ hn
      rw [analyzeLoop_step, ho]
      simp only [h, if_true, if_pos (Nat.succ_pos fuel)]
      rw [ih oracle n ((i + 1) % n) (a + 1) hi' hcred]
      simp only [AnalyzeRes.mk.injEq, EmbedRes.mk.injEq, true_and]
      refine ⟨?_, ?_⟩
      · show ((i + 1) % n + fuel) % n = (i + (fuel + 1)) % n
        rw [Nat.mod_add_mod]
        exact congrArg (· % n) (by omega)
      · show i :: (List.range (fuel + 1)).map (fun j => ((i + 1) % n + j) % n) =
          (List.range (fuel + 1 + 1)).map (fun j => (i + j) % n)
        conv_rhs => rw [List.range_succ_eq_map, List.map_cons, List.map_map]
        refine congrArg₂ List.cons ?_ ?_
        · show i = (i + 0) % n
          rw [Nat.add_zero, Nat.mod_eq_of_lt hi]
        apply List.map_congr_left
        intro j _
        show ((i + 1) % n + j) % n = (i + Nat.succ j) % n
        rw [Nat.mod_add_mod]
        exact congrArg (· % n) (by omega)

/-- The same induction for the embedding client's loop: an
all-credential-errors run attempts `i, ..., i+fuel (mod n)` and returns
the empty vector. -/
theorem embedLoop_allErr {α : Type} (fuel : Nat) :
    ∀ (oracle : Nat → EmbedOutcome α) (n i a : Nat), i < n →
      (∀ t, credCallE (oracle t) = true) →
      embedLoop oracle n (fuel + 1) i a =
        ⟨EmbedResult.vector [], (i + fuel) % n,
          (List.range (fuel + 1)).map (fun j => (i + j) % n)⟩ := by
  induction fuel with
  | zero =>
    intro oracle n i a hi hcred
    have h := hcred a
    cases ho : oracle a with
    | ok t => rw [ho] at h; simp [credCallE] at h
    | err m =>
      rw [ho] at h
      simp only [credCallE] at h
      rw [embedLoop_step, ho]
      simp [h, List.range_succ, Nat.mod_eq_of_lt hi]
  | succ fuel ih =>
    intro oracle n i a hi hcred
    have h := hcred a
    cases ho : oracle a with
    | ok t => rw [ho] at h; simp [credCallE] at h
    | err m =>
      rw [ho] at h
      simp only [credCallE] at h
      have hn : 0 < n := Nat.lt_of_le_of_lt (Nat.zero_le _) hi
      have hi' : (i + 1) % n < n := Nat.mod_lt _ hn
      rw [embedLoop_step, ho]
      simp only [h, if_true, if_pos (Nat.succ_pos fuel)]
      rw [ih oracle n ((i + 1) % n) (a + 1) hi' hcred]
      simp only [AnalyzeRes.mk.injEq, EmbedRes.mk.injEq, true_and]
      refine ⟨?_, ?_⟩
      · show ((i + 1) % n + fuel) % n = (i + (fuel + 1)) % n
        rw [Nat.mod_add_mod]
        exact congrArg (· % n) (by omega)
      · show i :: (List.range (fuel + 1)).map (fun j => ((i + 1) % n + j) % n) =
          (List.range (fuel + 1 + 1)).map (fun j => (i + j) % n)
        conv_rhs => rw [List.range_succ_eq_map, List.map_cons, List.map_map]
        refine congrArg₂ List.cons ?_ ?_
        · show i = (i + 0) % n
          rw [Nat.add_zero, Nat.mod_eq_of_lt hi]
        apply List.map_congr_left
        intro j _
        show ((i + 1) % n + j) % n = (i + Nat.succ j) % n
        rw [Nat.mod_add_mod]
        exact congrArg (· % n) (by omega)

/-- The attempted cursor positions `i0, ..., i0+n-1 (mod n)` are pairwise
distinct. -/
theorem rotation_indices_nodup (n i0 : Nat) (hn : 0 < n) :
    ((List.range n).map (fun j => (i0 + j) % n)).Nodup := by
  refine List.Nodup.map_on ?_ (List.nodup_range n)
  intro x hx y hy hxy
  rw [List.mem_range] at hx hy
  have hmx : x ≡ y [MOD n] := Nat.ModEq.add_left_cancel' i0 hxy
  have h2 := hmx
  unfold Nat.ModEq at h2
  rw [Nat.mod_eq_of_lt hx, Nat.mod_eq_of_lt hy] at h2
  exact h2

/-! ## Claim theorems -/

/-- C8: a successfully constructed `APIKeyManager` has a non-empty key
list and cursor 0; after every sequence of `get_current_key`/`next_key`
operations the key list is unchanged and the cursor stays in
`[0, len-1]`; `next_key` advances the cursor to
`(current_index + 1) mod pool size` and never modifies the keys. -/
theorem c8_key_pool_invariants (lines : List String) (m : APIKeyManager)
    (hc : APIKeyManager.construct lines = some m) :
    m.api_keys ≠ [] ∧ m.current_index = 0 ∧ m.current_index < m.api_keys.length ∧
      (∀ ops : List KeyOp,
        (applyKeyOps m ops).api_keys = m.api_keys ∧
          (applyKeyOps m ops).current_index < m.api_keys.length) ∧
      (∀ m' : APIKeyManager, m'.api_keys ≠ [] →
        (applyKeyOp m' KeyOp.nextKey).api_keys = m'.api_keys ∧
          (applyKeyOp m' KeyOp.nextKey).current_index =
            (m'.current_index + 1) % m'.api_keys.length) := by
  obtain ⟨ks, hload, hm⟩ := Option.map_eq_some'.mp hc
  have hks : ks ≠ [] := by
    unfold load_keys at hload
    by_cases h : (lines.map pyStrip).filter (fun s => s ≠ "") = []
    · rw [if_pos h] at hload; exact absurd hload (by simp)
    · rw [if_neg h] at hload
      intro hc2
      apply h
      rw [Option.some_inj.mp hload, hc2]
  have hkeys : m.api_keys = ks := by rw [← hm]
  have hidx : m.current_index = 0 := by rw [← hm]
  have hpos : 0 < m.api_keys.length := by
    rw [hkeys]
    exact List.length_pos.mpr hks
  refine ⟨by rw [hkeys]; exact hks, hidx, by omega, ?_, ?_⟩
  · intro ops
    exact applyKeyOps_invariant ops m (by omega)
  · intro m' hne
    have hemp : m'.api_keys.isEmpty = false := by
      cases hk : m'.api_keys with
      | nil => exact absurd hk hne
      | cons a l => rfl
    simp [applyKeyOp, hemp]

/-- C8 witness: a concrete key file with a blank and a padded line. -/
theorem c8_key_pool_invariants_witness :
    APIKeyManager.construct ["k1", "", " k2 "] = some ⟨["k1", "k2"], 0⟩ ∧
      ((["k1", "k2"] : List String) ≠ [] ∧
        (⟨["k1", "k2"], 0⟩ : APIKeyManager).current_index = 0 ∧
        (⟨["k1", "k2"], 0⟩ : APIKeyManager).current_index <
          (⟨["k1", "k2"], 0⟩ : APIKeyManager).api_keys.length ∧
        (∀ ops : List KeyOp,
          (applyKeyOps ⟨["k1", "k2"], 0⟩ ops).api_keys =
              (⟨["k1", "k2"], 0⟩ : APIKeyManager).api_keys ∧
            (applyKeyOps ⟨["k1", "k2"], 0⟩ ops).current_index <
              (⟨["k1", "k2"], 0⟩ : APIKeyManager).api_keys.length) ∧
        (∀ m' : APIKeyManager, m'.api_keys ≠ [] →
          (applyKeyOp m' KeyOp.nextKey).api_keys = m'.api_keys ∧
            (applyKeyOp m' KeyOp.nextKey).current_index =
              (m'.current_index + 1) % m'.api_keys.length)) :=
  ⟨by decide, c8_key_pool_invariants ["k1", "", " k2 "] ⟨["k1", "k2"], 0⟩ (by decide)⟩

/-- C2: when every remote call fails with a credential/quota-classified
error, the analyzer makes exactly `n` attempts at the distinct cursor
positions `i0, i0+1, ..., i0+n-1 (mod n)` and returns the all-`None`
default dictionary instead of raising. -/
theorem c2_pool_exhaustion (keys : List String) (i0 : Nat) (oracle : Nat → CallOutcome)
    (hne : keys ≠ []) (hi : i0 < keys.length)
    (hcred : ∀ t, credCallA (oracle t) = true) :
    (analyze_job_content_sync oracle ⟨keys, i0⟩).attempts =
        (List.range keys.length).map (fun j => (i0 + j) % keys.length) ∧
      (analyze_job_content_sync oracle ⟨keys, i0⟩).attempts.length = keys.length ∧
      (analyze_job_content_sync oracle ⟨keys, i0⟩).attempts.Nodup ∧
      (analyze_job_content_sync oracle ⟨keys, i0⟩).outcome =
        AnalyzeOutcome.done defaultAnalysis := by
  have hpos : 0 < keys.length := List.length_pos.mpr hne
  have hemp : keys.isEmpty = false := by
    cases keys with
    | nil => exact absurd rfl hne
    | cons a l => rfl
  obtain ⟨f, hf⟩ : ∃ f, keys.length = f + 1 := ⟨keys.length - 1, by omega⟩
  have hrun : analyze_job_content_sync oracle ⟨keys, i0⟩ =
      ⟨AnalyzeOutcome.done defaultAnalysis, (i0 + f) % keys.length,
        (List.range (f + 1)).map (fun j => (i0 + j) % keys.length)⟩ := by
    unfold analyze_job_content_sync
    simp only [hemp, Bool.false_eq_true, if_false]
    rw [show analyzeLoop oracle keys.length keys.length i0 0
        = analyzeLoop oracle keys.length (f + 1) i0 0 from by rw [← hf]]
    exact analyzeLoop_allErr f oracle keys.length i0 0 hi hcred
  rw [hrun]
  refine ⟨by rw [hf], ?_, ?_, rfl⟩
  · simp [hf]
  · rw [show f + 1 = keys.length from hf.symm]
    exact rotation_indices_nodup keys.length i0 hpos

/-- C2 witness: a 3-key pool starting at cursor 1 under a constant quota
error. -/
theorem c2_pool_exhaustion_witness :
    (["a", "b", "c"] : List String) ≠ [] ∧
      1 < (["a", "b", "c"] : List String).length ∧
      ((analyze_job_content_sync (fun _ => CallOutcome.err "429 quota exceeded")
            ⟨["a", "b", "c"], 1⟩).attempts =
          (List.range (["a", "b", "c"] : List String).length).map
            (fun j => (1 + j) % (["a", "b", "c"] : List String).length) ∧
        (analyze_job_content_sync (fun _ => CallOutcome.err "429 quota exceeded")
            ⟨["a", "b", "c"], 1⟩).attempts.length = (["a", "b", "c"] : List String).length ∧
        (analyze_job_content_sync (fun _ => CallOutcome.err "429 quota exceeded")
            ⟨["a", "b", "c"], 1⟩).attempts.Nodup ∧
        (analyze_job_content_sync (fun _ => CallOutcome.err "429 quota exceeded")
            ⟨["a", "b", "c"], 1⟩).outcome = AnalyzeOutcome.done defaultAnalysis) :=
  ⟨by decide, by decide,
    c2_pool_exhaustion ["a", "b", "c"] 1 (fun _ => CallOutcome.err "429 quota exceeded")
      (by decide) (by decide)
      (fun _ => show credCallA (CallOutcome.err "429 quota exceeded") = true by decide)⟩

/-- C6: a non-credential error aborts the analyzer at once: the default
dictionary is returned without raising, no further attempt is made, and
the cursor is left where it was. -/
theorem c6_noncred_abort (keys : List String) (i0 : Nat) (oracle : Nat → CallOutcome)
    (msg : String) (hne : keys ≠ []) (hi : i0 < keys.length)
    (h0 : oracle 0 = CallOutcome.err msg) (hcls : isApiKeyErrorAnalyze msg = false) :
    analyze_job_content_sync oracle ⟨keys, i0⟩ =
      ⟨AnalyzeOutcome.done defaultAnalysis, i0, [i0]⟩ := by
  have hemp : keys.isEmpty = false := by
    cases keys with
    | nil => exact absurd rfl hne
    | cons a l => rfl
  obtain ⟨f, hf⟩ : ∃ f, keys.length = f + 1 :=
    ⟨keys.length - 1, by have := List.length_pos.mpr hne; omega⟩
  unfold analyze_job_content_sync
  simp only [hemp, Bool.false_eq_true, if_false]
  rw [show analyzeLoop oracle keys.length keys.length i0 0
      = analyzeLoop oracle keys.length (f + 1) i0 0 from by rw [← hf]]
  rw [analyzeLoop_step, h0]
  simp [hcls]

/-- C6 witness: a server error on the first call of a 2-key pool. -/
theorem c6_noncred_abort_witness :
    (["a", "b"] : List String) ≠ [] ∧
      0 < (["a", "b"] : List String).length ∧
      isApiKeyErrorAnalyze "500 server fault" = false ∧
      analyze_job_content_sync (fun _ => CallOutcome.err "500 server fault") ⟨["a", "b"], 0⟩ =
        ⟨AnalyzeOutcome.done defaultAnalysis, 0, [0]⟩ :=
  ⟨by decide, by decide, by decide,
    c6_noncred_abort ["a", "b"] 0 (fun _ => CallOutcome.err "500 server fault") "500 server fault"
      (by decide) (by decide) rfl (by decide)⟩

/-- C10: on a fresh `AsyncJobAnalyzer` nothing is a duplicate; after
`mark_as_processed(title, company)` every pair equal to it after
trimming and lowercasing is a duplicate, because both operations key on
the same deterministic internal hash `"internal_"` plus the first 16 hex
characters of the MD5 of the normalised `title|company`. -/
theorem c10_duplicate_tracking :
    (∀ t c : Option String, AsyncJobAnalyzer.init.is_duplicate t c = false) ∧
      (∀ (a : AsyncJobAnalyzer) (t c t2 c2 : Option String),
        pyLower (pyStrip (orEmpty t2)) = pyLower (pyStrip (orEmpty t)) →
        pyLower (pyStrip (orEmpty c2)) = pyLower (pyStrip (orEmpty c)) →
        (a.mark_as_processed t c).is_duplicate t2 c2 = true) ∧
      (∀ t c : Option String,
        AsyncJobAnalyzer.generate_internal_hash t c =
          "internal_" ++ String.mk ((md5Hex (utf8Bytes
            (pyLower (pyStrip (orEmpty t)) ++ "|" ++
              pyLower (pyStrip (orEmpty c))).data)).data.take 16)) := by
  refine ⟨fun t c => rfl, ?_, fun t c => rfl⟩
  intro a t c t2 c2 h1 h2
  have hh : AsyncJobAnalyzer.generate_internal_hash t2 c2 =
      AsyncJobAnalyzer.generate_internal_hash t c := by
    unfold AsyncJobAnalyzer.generate_internal_hash
    rw [h1, h2]
  unfold AsyncJobAnalyzer.is_duplicate AsyncJobAnalyzer.mark_as_processed
  rw [hh]
  simp [List.contains_cons]

/-- C10 witness: marking one record makes its case/whitespace variant a
duplicate. -/
theorem c10_duplicate_tracking_witness :
    pyLower (pyStrip (orEmpty (some " Software Engineer"))) =
        pyLower (pyStrip (orEmpty (some "software engineer"))) ∧
      pyLower (pyStrip (orEmpty (some "ACME CORP "))) =
        pyLower (pyStrip (orEmpty (some "acme corp"))) ∧
      (AsyncJobAnalyzer.init.mark_as_processed (some "software engineer")
          (some "acme corp")).is_duplicate (some " Software Engineer") (some "ACME CORP ") =
        true :=
  ⟨by decide, by decide,
    c10_duplicate_tracking.2.1 AsyncJobAnalyzer.init (some "software engineer")
      (some "acme corp") (some " Software Engineer") (some "ACME CORP ")
      (by decide) (by decide)⟩

/-- C5: `generate_job_hash` is the SHA-256 hex digest of the
pipe-delimited string of the lowercased, trimmed title and company (with
`|postedDate` appended when a truthy date is supplied), so keys are
invariant under case and surrounding whitespace, and the spec's concrete
example pair collides as required. -/
theorem c5_dedup_key :
    (∀ t c d : String, d ≠ "" →
        Itviec.generate_job_hash t c (some d) =
            sha256Hex (utf8Bytes
              (pyLower (pyStrip t) ++ "|" ++ pyLower (pyStrip c) ++ "|" ++ d).data) ∧
          LinkedIn.generate_job_hash t c (some d) =
            sha256Hex (utf8Bytes
              (pyLower (pyStrip t) ++ "|" ++ pyLower (pyStrip c) ++ "|" ++ d).data)) ∧
      (∀ t c : String,
        Itviec.generate_job_hash t c none =
            sha256Hex (utf8Bytes (pyLower (pyStrip t) ++ "|" ++ pyLower (pyStrip c)).data) ∧
          LinkedIn.generate_job_hash t c none =
            sha256Hex (utf8Bytes (pyLower (pyStrip t) ++ "|" ++ pyLower (pyStrip c)).data)) ∧
      (∀ t t2 c c2 : String, pyLower (pyStrip t) = pyLower (pyStrip t2) →
        pyLower (pyStrip c) = pyLower (pyStrip c2) → ∀ d : Option String,
        Itviec.generate_job_hash t c d = Itviec.generate_job_hash t2 c2 d ∧
          LinkedIn.generate_job_hash t c d = LinkedIn.generate_job_hash t2 c2 d) ∧
      (Itviec.generate_job_hash "Software Engineer " " Acme Corp" none =
          Itviec.generate_job_hash "software engineer" "acme corp" none ∧
        LinkedIn.generate_job_hash "Software Engineer " " Acme Corp" none =
          LinkedIn.generate_job_hash "software engineer" "acme corp" none) := by
  refine ⟨?_, ?_, ?_, ?_⟩
  · intro t c d hd
    have htr : truthyStr (some d) = true := by simp [truthyStr, hd]
    unfold Itviec.generate_job_hash LinkedIn.generate_job_hash
    rw [htr, pyStrip_pyLower t, pyStrip_pyLower c]
    exact ⟨rfl, rfl⟩
  · intro t c
    unfold Itviec.generate_job_hash LinkedIn.generate_job_hash
    rw [show truthyStr none = false from rfl, pyStrip_pyLower t, pyStrip_pyLower c]
    exact ⟨rfl, rfl⟩
  · intro t t2 c c2 h1 h2 d
    unfold Itviec.generate_job_hash LinkedIn.generate_job_hash
    rw [pyStrip_pyLower t, pyStrip_pyLower c, pyStrip_pyLower t2, pyStrip_pyLower c2, h1, h2]
    exact ⟨rfl, rfl⟩
  · have h1 : pyStrip (pyLower "Software Engineer ") = pyStrip (pyLower "software engineer") := by
      decide
    have h2 : pyStrip (pyLower " Acme Corp") = pyStrip (pyLower "acme corp") := by decide
    unfold Itviec.generate_job_hash LinkedIn.generate_job_hash
    rw [show truthyStr none = false from rfl, h1, h2]
    exact ⟨rfl, rfl⟩

/-- C5 witness: the date-carrying form at concrete inputs. -/
theorem c5_dedup_key_witness :
    ("2024-01-01" : String) ≠ "" ∧
      (Itviec.generate_job_hash "X" "Y" (some "2024-01-01") =
          sha256Hex (utf8Bytes
            (pyLower (pyStrip "X") ++ "|" ++ pyLower (pyStrip "Y") ++ "|" ++ "2024-01-01").data) ∧
        LinkedIn.generate_job_hash "X" "Y" (some "2024-01-01") =
          sha256Hex (utf8Bytes
            (pyLower (pyStrip "X") ++ "|" ++ pyLower (pyStrip "Y") ++ "|" ++ "2024-01-01").data)) :=
  ⟨by decide, c5_dedup_key.1 "X" "Y" "2024-01-01" (by decide)⟩

/-- C9 counterexample: the two classifiers are not the same token set —
the analyzer rotates on `exhausted` while the embedding client checks
`internal` instead, so on the message `Resource exhausted` the analyzer
rotates through both keys of a 2-key pool while the embedding client
aborts after one attempt. -/
theorem c9_policy_counterexample :
    isApiKeyErrorAnalyze "Resource exhausted" = true ∧
      isApiKeyErrorEmbed "Resource exhausted" = false ∧
      (analyze_job_content_sync (fun _ => CallOutcome.err "Resource exhausted")
          ⟨["a", "b"], 0⟩).attempts = [0, 1] ∧
      (@get_embedding Int (fun _ => EmbedOutcome.err "Resource exhausted")
          ⟨["a", "b"], 0⟩).attempts = [0] := by
  refine ⟨by decide, by decide, by decide, by decide⟩

/-- C9 amended: the embedding client follows the same rotate/abort policy
shape as the analyzer — bounded rotation through at most pool-size keys
on classified errors and an empty-vector sentinel on failure — and the
two classifiers agree on every message containing neither `exhausted` nor
`internal`; they differ exactly in that seventh token. -/
theorem c9_embed_policy :
    (∀ msg : String,
        containsSub ("exhausted".data) (pyLowerL msg.data) = false →
        containsSub ("internal".data) (pyLowerL msg.data) = false →
        isApiKeyErrorAnalyze msg = isApiKeyErrorEmbed msg) ∧
      (∀ (α : Type) (keys : List String) (i0 : Nat) (oracle : Nat → EmbedOutcome α),
        keys ≠ [] → i0 < keys.length → (∀ t, credCallE (oracle t) = true) →
        (get_embedding oracle ⟨keys, i0⟩).attempts =
            (List.range keys.length).map (fun j => (i0 + j) % keys.length) ∧
          (get_embedding oracle ⟨keys, i0⟩).attempts.length = keys.length ∧
          (get_embedding oracle ⟨keys, i0⟩).attempts.Nodup ∧
          (get_embedding oracle ⟨keys, i0⟩).result = EmbedResult.vector []) := by
  constructor
  · intro msg hex hin
    unfold isApiKeyErrorAnalyze isApiKeyErrorEmbed
    simp only [hex, hin]
  · intro α keys i0 oracle hne hi hcred
    have hpos : 0 < keys.length := List.length_pos.mpr hne
    have hemp : keys.isEmpty = false := by
      cases keys with
      | nil => exact absurd rfl hne
      | cons a l => rfl
    obtain ⟨f, hf⟩ : ∃ f, keys.length = f + 1 := ⟨keys.length - 1, by omega⟩
    have hrun : get_embedding oracle ⟨keys, i0⟩ =
        ⟨EmbedResult.vector [], (i0 + f) % keys.length,
          (List.range (f + 1)).map (fun j => (i0 + j) % keys.length)⟩ := by
      unfold get_embedding
      simp only [hemp, Bool.false_eq_true, if_false]
      rw [show embedLoop oracle keys.length keys.length i0 0
          = embedLoop oracle keys.length (f + 1) i0 0 from by rw [← hf]]
      exact embedLoop_allErr f oracle keys.length i0 0 hi hcred
    rw [hrun]
    refine ⟨by rw [hf], ?_, ?_, rfl⟩
    · simp [hf]
    · rw [show f + 1 = keys.length from hf.symm]
      exact rotation_indices_nodup keys.length i0 hpos

/-- C9 amended witness: classifier agreement on a quota message, and the
exhaustion run of the embedding client on a 2-key pool. -/
theorem c9_embed_policy_witness :
    containsSub ("exhausted".data) (pyLowerL "Quota exceeded".data) = false ∧
      containsSub ("internal".data) (pyLowerL "Quota exceeded".data) = false ∧
      isApiKeyErrorAnalyze "Quota exceeded" = isApiKeyErrorEmbed "Quota exceeded" ∧
      (["a", "b"] : List String) ≠ [] ∧
      ((@get_embedding Int (fun _ => EmbedOutcome.err "rate limit hit")
            ⟨["a", "b"], 0⟩).attempts =
          (List.range (["a", "b"] : List String).length).map
            (fun j => (0 + j) % (["a", "b"] : List String).length) ∧
        (@get_embedding Int (fun _ => EmbedOutcome.err "rate limit hit")
            ⟨["a", "b"], 0⟩).attempts.length = (["a", "b"] : List String).length ∧
        (@get_embedding Int (fun _ => EmbedOutcome.err "rate limit hit")
            ⟨["a", "b"], 0⟩).attempts.Nodup ∧
        (@get_embedding Int (fun _ => EmbedOutcome.err "rate limit hit")
            ⟨["a", "b"], 0⟩).result = EmbedResult.vector []) :=
  ⟨by decide, by decide,
    c9_embed_policy.1 "Quota exceeded" (by decide) (by decide),
    by decide,
    c9_embed_policy.2 Int ["a", "b"] 0 (fun _ => EmbedOutcome.err "rate limit hit")
      (by decide) (by decide)
      (fun _ => show credCallE (EmbedOutcome.err (α := Int) "rate limit hit") = true by decide)⟩

/-! ## String-scanning lemmas for the parser claims -/

theorem isDigitC_iff (c : Char) : isDigitC c = true ↔ 48 ≤ c.toNat ∧ c.toNat ≤ 57 := by
  simp [isDigitC]

theorem isWSC_of_digit (c : Char) (h : isDigitC c = true) : isWSC c = false := by
  rw [isDigitC_iff] at h
  cases hw : isWSC c with
  | false => rfl
  | true => rw [isWSC_eq_true] at hw; omega

theorem lowerC_digit (c : Char) (h : isDigitC c = true) : lowerC c = c := by
  rw [isDigitC_iff] at h
  exact lowerC_of_not_upper c (by omega)

theorem pyLowerL_fixed (l : List Char) (h : ∀ c ∈ l, lowerC c = c) : pyLowerL l = l := by
  unfold pyLowerL
  rw [List.map_congr_left h]
  exact List.map_id l

theorem dropWhile_eq_self_of_head (p : Char → Bool) (l : List Char)
    (h : ∀ hd, l.head? = some hd → p hd = false) : l.dropWhile p = l := by
  cases l with
  | nil => rfl
  | cons c cs =>
    rw [List.dropWhile_cons, h c rfl]
    simp

theorem stripL_eq_self (l : List Char)
    (hh : ∀ hd, l.head? = some hd → isWSC hd = false)
    (hl : ∀ la, l.getLast? = some la → isWSC la = false) : stripL l = l := by
  unfold stripL
  rw [dropWhile_eq_self_of_head isWSC l hh]
  rw [dropWhile_eq_self_of_head isWSC l.reverse (by rw [List.head?_reverse]; exact hl)]
  exact List.reverse_reverse l

theorem startsWithL_ne_head (h : Char) (tk : List Char) (c : Char) (cs : List Char)
    (hne : h ≠ c) : startsWithL (h :: tk) (c :: cs) = false := by
  unfold startsWithL
  rw [show (h == c) = false from beq_eq_false_iff_ne.mpr hne]
  rfl

theorem containsSub_none_of_head_notmem (h : Char) (tk l : List Char)
    (hmem : ∀ c ∈ l, h ≠ c) : containsSub (h :: tk) l = false := by
  induction l with
  | nil => rfl
  | cons c cs ih =>
    unfold containsSub
    rw [startsWithL_ne_head h tk c cs (hmem c (List.mem_cons_self c cs))]
    rw [ih (fun x hx => hmem x (List.mem_cons_of_mem c hx))]
    rfl

theorem containsSub_digits_append (h : Char) (tk ds k : List Char)
    (hds : ∀ c ∈ ds, isDigitC c = true) (hh : isDigitC h = false)
    (hk : containsSub (h :: tk) k = false) : containsSub (h :: tk) (ds ++ k) = false := by
  induction ds with
  | nil => exact hk
  | cons d rest ih =>
    have hd : isDigitC d = true := hds d (List.mem_cons_self d rest)
    have hne : h ≠ d := by intro he; rw [he] at hh; rw [hd] at hh; exact Bool.noConfusion hh
    show containsSub (h :: tk) (d :: (rest ++ k)) = false
    unfold containsSub
    rw [startsWithL_ne_head h tk d (rest ++ k) hne]
    rw [ih (fun c hc => hds c (List.mem_cons_of_mem d hc))]
    rfl

theorem takeWhile_append_of_all (p : Char → Bool) (ds k : List Char)
    (hds : ∀ c ∈ ds, p c = true) (hk : ∀ hd, k.head? = some hd → p hd = false) :
    (ds ++ k).takeWhile p = ds := by
  induction ds with
  | nil =>
    cases k with
    | nil => rfl
    | cons c cs => simp [List.takeWhile_cons, hk c rfl]
  | cons d rest ih =>
    rw [List.cons_append, List.takeWhile_cons, hds d (List.mem_cons_self d rest)]
    rw [ih (fun c hc => hds c (List.mem_cons_of_mem d hc))]
    rfl

theorem dropWhile_append_of_all (p : Char → Bool) (ds k : List Char)
    (hds : ∀ c ∈ ds, p c = true) (hk : ∀ hd, k.head? = some hd → p hd = false) :
    (ds ++ k).dropWhile p = k := by
  induction ds with
  | nil => exact dropWhile_eq_self_of_head p k hk
  | cons d rest ih =>
    rw [List.cons_append, List.dropWhile_cons, hds d (List.mem_cons_self d rest)]
    rw [ih (fun c hc => hds c (List.mem_cons_of_mem d hc))]
    rfl

theorem searchUnit_append_none (u ds k : List Char)
    (hds : ∀ c ∈ ds, isDigitC c = true)
    (hk : ∀ hd, k.head? = some hd → isDigitC hd = false)
    (hm : matchAfterDigits u k = false) (hsk : searchUnit u k = none) :
    searchUnit u (ds ++ k) = none := by
  induction ds with
  | nil => exact hsk
  | cons d rest ih =>
    have hd : isDigitC d = true := hds d (List.mem_cons_self d rest)
    have hrest : ∀ c ∈ rest, isDigitC c = true := fun c hc => hds c (List.mem_cons_of_mem d hc)
    show searchUnit u (d :: (rest ++ k)) = none
    unfold searchUnit
    rw [hd]
    rw [show (d :: (rest ++ k)).dropWhile isDigitC = k from
      dropWhile_append_of_all isDigitC (d :: rest) k hds hk]
    rw [hm]
    simp only [if_true, if_false, Bool.false_eq_true]
    exact ih hrest

theorem searchUnit_append_found (u : List Char) (d : Char) (rest k : List Char)
    (hds : ∀ c ∈ d :: rest, isDigitC c = true)
    (hk : ∀ hd, k.head? = some hd → isDigitC hd = false)
    (hm : matchAfterDigits u k = true) :
    searchUnit u ((d :: rest) ++ k) = some (d :: rest) := by
  show searchUnit u (d :: (rest ++ k)) = some (d :: rest)
  unfold searchUnit
  rw [hds d (List.mem_cons_self d rest)]
  rw [show (d :: (rest ++ k)).dropWhile isDigitC = k from
    dropWhile_append_of_all isDigitC (d :: rest) k hds hk]
  rw [hm]
  simp only [if_true]
  rw [show (d :: (rest ++ k)).takeWhile isDigitC = d :: rest from
    takeWhile_append_of_all isDigitC (d :: rest) k hds hk]

theorem dateMatchAt_digits_mago (ds : List Char) (hne : ds ≠ [])
    (hds : ∀ c ∈ ds, isDigitC c = true) :
    dateMatchAt (ds ++ (" months ago").data) = none := by
  have hk : ∀ hd, ((" months ago").data).head? = some hd → isDigitC hd = false := by decide
  have hrun : (ds ++ (" months ago").data).takeWhile isDigitC = ds :=
    takeWhile_append_of_all isDigitC ds _ hds hk
  have hdrop : (ds ++ (" months ago").data).drop ds.length = (" months ago").data :=
    List.drop_left ds _
  simp only [dateMatchAt, hrun, hdrop]
  by_cases hl : ds.length = 1 ∨ ds.length = 2
  · rw [if_pos hl]
    rfl
  · rw [if_neg hl]

theorem dateSearch_digits_mago (ds : List Char) (hds : ∀ c ∈ ds, isDigitC c = true) :
    dateSearch (ds ++ (" months ago").data) = none := by
  induction ds with
  | nil => decide
  | cons d rest ih =>
    have hrest : ∀ c ∈ rest, isDigitC c = true := fun c hc => hds c (List.mem_cons_of_mem d hc)
    show dateSearch (d :: (rest ++ (" months ago").data)) = none
    unfold dateSearch
    rw [show dateMatchAt (d :: (rest ++ (" months ago").data)) = none from
      dateMatchAt_digits_mago (d :: rest) (by simp) hds]
    exact ih hrest

theorem rolloverAux_succ (fuel : Nat) (y m : Int) :
    rolloverAux (fuel + 1) y m =
      if m ≤ 0 then rolloverAux fuel (y - 1) (m + 12) else (y, m) := rfl

theorem rolloverAux_spec (fuel : Nat) :
    ∀ y m : Int, m ≤ 12 → (1 - m).toNat ≤ fuel →
      1 ≤ (rolloverAux fuel y m).2 ∧ (rolloverAux fuel y m).2 ≤ 12 ∧
        (rolloverAux fuel y m).1 ≤ y := by
  induction fuel with
  | zero =>
    intro y m hm hfu
    have : 1 ≤ m := by omega
    exact ⟨this, hm, le_refl y⟩
  | succ fuel ih =>
    intro y m hm hfu
    by_cases h : m ≤ 0
    · rw [rolloverAux_succ, if_pos h]
      obtain ⟨h1, h2, h3⟩ := ih (y - 1) (m + 12) (by omega) (by omega)
      exact ⟨h1, h2, by omega⟩
    · rw [rolloverAux_succ, if_neg h]
      exact ⟨by omega, hm, le_refl y⟩

theorem rollover_spec (y m : Int) (hm : m ≤ 12) :
    1 ≤ (rollover y m).2 ∧ (rollover y m).2 ≤ 12 ∧ (rollover y m).1 ≤ y :=
  rolloverAux_spec ((1 - m).toNat) y m hm (le_refl _)

theorem monthsClamp (y m : Int) (h1 : 1 ≤ m) (h2 : m ≤ 12) (hy1 : 1 ≤ y) (hy2 : y ≤ 9999) :
    (if m = 2 then (if isLeapI y then pyDate y 2 29 else pyDate y 2 28)
      else if m = 4 ∨ m = 6 ∨ m = 9 ∨ m = 11 then pyDate y m 30
      else pyDate y m 31) = some ⟨y.toNat, m.toNat, daysInMonthI y m.toNat⟩ := by
  interval_cases m
  · simp [pyDate, daysInMonthI, hy1, hy2]
  · cases hL : isLeapI y <;> simp [pyDate, daysInMonthI, hy1, hy2, hL]
  · simp [pyDate, daysInMonthI, hy1, hy2]
  · simp [pyDate, daysInMonthI, hy1, hy2]
  · simp [pyDate, daysInMonthI, hy1, hy2]
  · simp [pyDate, daysInMonthI, hy1, hy2]
  · simp [pyDate, daysInMonthI, hy1, hy2]
  · simp [pyDate, daysInMonthI, hy1, hy2]
  · simp [pyDate, daysInMonthI, hy1, hy2]
  · simp [pyDate, daysInMonthI, hy1, hy2]
  · simp [pyDate, daysInMonthI, hy1, hy2]
  · simp [pyDate, daysInMonthI, hy1, hy2]

/-- Decomposition of datetime validity into arithmetic facts. -/
theorem validDT_facts (t : DT) (h : validDT t = true) :
    1 ≤ t.year ∧ t.year ≤ 9999 ∧ 1 ≤ t.month ∧ t.month ≤ 12 ∧ 1 ≤ t.day ∧
      t.day ≤ daysInMonthI (t.year : Int) t.month := by
  unfold validDT at h
  simp only [Bool.and_eq_true, decide_eq_true_eq] at h
  exact ⟨h.1.1.1.1.1.1.1, h.1.1.1.1.1.1.2, h.1.1.1.1.1.2, h.1.1.1.1.2, h.1.1.1.2, h.1.1.2⟩

/-- Characterisation of the months branch: when the rolled-back year is
still at least 1, the result is the target year/month with the reference
day clamped to the target month's last valid day. -/
theorem monthsBack_spec (ref : DT) (n : Nat) (href : validDT ref = true)
    (hy : 1 ≤ (rollover (ref.year : Int) ((ref.month : Int) - (n : Int))).1) :
    monthsBack ref n =
      some ⟨(rollover (ref.year : Int) ((ref.month : Int) - (n : Int))).1.toNat,
        (rollover (ref.year : Int) ((ref.month : Int) - (n : Int))).2.toNat,
        min ref.day
          (daysInMonthI (rollover (ref.year : Int) ((ref.month : Int) - (n : Int))).1
            (rollover (ref.year : Int) ((ref.month : Int) - (n : Int))).2.toNat)⟩ := by
  obtain ⟨hv1, hv2, hv3, hv4, hv5, hv6⟩ := validDT_facts ref href
  obtain ⟨hm1, hm2, hyle⟩ :=
    rollover_spec (ref.year : Int) ((ref.month : Int) - (n : Int)) (by omega)
  have hy9 : (rollover (ref.year : Int) ((ref.month : Int) - (n : Int))).1 ≤ 9999 := by omega
  unfold monthsBack
  by_cases hfit : (ref.day : Int) ≤
      (daysInMonthI (rollover (ref.year : Int) ((ref.month : Int) - (n : Int))).1
        (rollover (ref.year : Int) ((ref.month : Int) - (n : Int))).2.toNat : Int)
  · have hsome : pyDate (rollover (ref.year : Int) ((ref.month : Int) - (n : Int))).1
        (rollover (ref.year : Int) ((ref.month : Int) - (n : Int))).2 (ref.day : Int) =
        some ⟨(rollover (ref.year : Int) ((ref.month : Int) - (n : Int))).1.toNat,
          (rollover (ref.year : Int) ((ref.month : Int) - (n : Int))).2.toNat,
          (ref.day : Int).toNat⟩ := by
      unfold pyDate
      rw [if_pos ⟨hy, hy9, hm1, hm2, by exact_mod_cast hv5, hfit⟩]
    simp only [hsome]
    have hmin : min ref.day
        (daysInMonthI (rollover (ref.year : Int) ((ref.month : Int) - (n : Int))).1
          (rollover (ref.year : Int) ((ref.month : Int) - (n : Int))).2.toNat) = ref.day := by
      have : ref.day ≤ daysInMonthI (rollover (ref.year : Int) ((ref.month : Int) - (n : Int))).1
          (rollover (ref.year : Int) ((ref.month : Int) - (n : Int))).2.toNat := by
        exact_mod_cast hfit
      omega
    rw [hmin, Int.toNat_natCast]
  · have hnone : pyDate (rollover (ref.year : Int) ((ref.month : Int) - (n : Int))).1
        (rollover (ref.year : Int) ((ref.month : Int) - (n : Int))).2 (ref.day : Int) = none := by
      unfold pyDate
      rw [if_neg]
      intro hcon
      exact hfit hcon.2.2.2.2.2
    simp only [hnone]
    have hmin : min ref.day
        (daysInMonthI (rollover (ref.year : Int) ((ref.month : Int) - (n : Int))).1
          (rollover (ref.year : Int) ((ref.month : Int) - (n : Int))).2.toNat) =
        daysInMonthI (rollover (ref.year : Int) ((ref.month : Int) - (n : Int))).1
          (rollover (ref.year : Int) ((ref.month : Int) - (n : Int))).2.toNat := by
      have : ¬ ref.day ≤ daysInMonthI (rollover (ref.year : Int) ((ref.month : Int) - (n : Int))).1
          (rollover (ref.year : Int) ((ref.month : Int) - (n : Int))).2.toNat := by
        intro hle
        exact hfit (by exact_mod_cast hle)
      omega
    rw [hmin]
    exact monthsClamp _ _ hm1 hm2 hy hy9

/-- Guard eliminations shared by both parsers on a `N months ago` input:
the cleaned text is the input itself and none of the keyword guards
fires. -/
theorem monthsAgo_text_facts (d : Char) (rest : List Char)
    (hds : ∀ c ∈ d :: rest, isDigitC c = true) :
    pyLowerL ((d :: rest) ++ (" months ago").data) = (d :: rest) ++ (" months ago").data ∧
      stripL ((d :: rest) ++ (" months ago").data) = (d :: rest) ++ (" months ago").data ∧
      containsSub ("today".data) ((d :: rest) ++ (" months ago").data) = false ∧
      containsSub ("just now".data) ((d :: rest) ++ (" months ago").data) = false ∧
      containsSub ("yesterday".data) ((d :: rest) ++ (" months ago").data) = false ∧
      containsSub ("hours ago".data) ((d :: rest) ++ (" months ago").data) = false ∧
      containsSub ("minutes ago".data) ((d :: rest) ++ (" months ago").data) = false := by
  refine ⟨?_, ?_, ?_, ?_, ?_, ?_, ?_⟩
  · apply pyLowerL_fixed
    intro c hc
    rcases List.mem_append.mp hc with h | h
    · exact lowerC_digit c (hds c h)
    · exact (show ∀ c ∈ (" months ago").data, lowerC c = c by decide) c h
  · apply stripL_eq_self
    · intro hd hh
      have : hd = d := by
        have : ((d :: rest) ++ (" months ago").data).head? = some d := rfl
        rw [this] at hh
        exact (Option.some_inj.mp hh).symm
      rw [this]
      exact isWSC_of_digit d (hds d (List.mem_cons_self d rest))
    · intro la hla
      rw [List.getLast?_append] at hla
      rw [show ((" months ago").data).getLast? = some 'o' from rfl] at hla
      rw [show (Option.some 'o').or ((d :: rest).getLast?) = some 'o' from rfl] at hla
      rw [← Option.some_inj.mp hla]
      decide
  · rw [show ("today".data) = 't' :: "oday".data from rfl]
    exact containsSub_digits_append 't' _ _ _ hds (by decide) (by decide)
  · rw [show ("just now".data) = 'j' :: "ust now".data from rfl]
    exact containsSub_digits_append 'j' _ _ _ hds (by decide) (by decide)
  · rw [show ("yesterday".data) = 'y' :: "esterday".data from rfl]
    exact containsSub_digits_append 'y' _ _ _ hds (by decide) (by decide)
  · rw [show ("hours ago".data) = 'h' :: "ours ago".data from rfl]
    exact containsSub_digits_append 'h' _ _ _ hds (by decide) (by decide)
  · rw [show ("minutes ago".data) = 'm' :: "inutes ago".data from rfl]
    exact containsSub_digits_append 'm' _ _ _ hds (by decide) (by decide)

/-- On input `N months ago` the itviec parser reaches exactly its months
branch. -/
theorem itviecResolve_monthsAgo (ds : List Char) (hne : ds ≠ [])
    (hds : ∀ c ∈ ds, isDigitC c = true) (ref : DT) :
    itviecResolve (ds ++ (" months ago").data) ref = monthsBack ref (digitsVal ds) := by
  obtain ⟨d, rest, rfl⟩ := List.exists_cons_of_ne_nil hne
  obtain ⟨hlow, hstrip, htoday, hjust, hyest, _, _⟩ := monthsAgo_text_facts d rest hds
  have hk_head : ∀ hd, ((" months ago").data).head? = some hd → isDigitC hd = false := by decide
  have hclean : cleanText ((d :: rest) ++ (" months ago").data) =
      (d :: rest) ++ (" months ago").data := by
    unfold cleanText
    rw [hlow, hstrip]
    show (if startsWithL ("posted".data) ((d :: rest) ++ (" months ago").data) = true
        then stripL (((d :: rest) ++ (" months ago").data).drop 6)
        else (d :: rest) ++ (" months ago").data) = (d :: rest) ++ (" months ago").data
    rw [show ("posted".data) = 'p' :: "osted".data from rfl, List.cons_append]
    rw [startsWithL_ne_head 'p' _ d _ (by
      intro he
      have := hds d (List.mem_cons_self d rest)
      rw [← he] at this
      exact Bool.noConfusion this)]
    simp
  have hemp : ((d :: rest) ++ (" months ago").data).isEmpty = false := rfl
  have hdate : dateSearch ((d :: rest) ++ (" months ago").data) = none :=
    dateSearch_digits_mago (d :: rest) hds
  have hmin : searchUnit ("minute".data) ((d :: rest) ++ (" months ago").data) = none :=
    searchUnit_append_none _ _ _ hds hk_head (by decide) (by decide)
  have hhour : searchUnit ("hour".data) ((d :: rest) ++ (" months ago").data) = none :=
    searchUnit_append_none _ _ _ hds hk_head (by decide) (by decide)
  have hday : searchUnit ("day".data) ((d :: rest) ++ (" months ago").data) = none :=
    searchUnit_append_none _ _ _ hds hk_head (by decide) (by decide)
  have hweek : searchUnit ("week".data) ((d :: rest) ++ (" months ago").data) = none :=
    searchUnit_append_none _ _ _ hds hk_head (by decide) (by decide)
  have hmonth : searchUnit ("month".data) ((d :: rest) ++ (" months ago").data) =
      some (d :: rest) :=
    searchUnit_append_found _ d rest _ hds hk_head (by decide)
  unfold itviecResolve
  rw [hemp]
  simp only [Bool.false_eq_true, if_false, hclean, htoday, hjust, hyest, hemp, Bool.or_self,
    Bool.or_false, hdate]
  unfold itviecRelative
  simp only [hmin, hhour, hday, hweek, hmonth]

/-- On input `N months ago` the LinkedIn parser reaches exactly its months
branch (the same computation). -/
theorem linkedinResolve_monthsAgo (ds : List Char) (hne : ds ≠ [])
    (hds : ∀ c ∈ ds, isDigitC c = true) (ref : DT) :
    linkedinResolve (ds ++ (" months ago").data) ref = monthsBack ref (digitsVal ds) := by
  obtain ⟨d, rest, rfl⟩ := List.exists_cons_of_ne_nil hne
  obtain ⟨hlow, hstrip, htoday, hjust, hyest, hhoursago, hminutesago⟩ :=
    monthsAgo_text_facts d rest hds
  have hk_head : ∀ hd, ((" months ago").data).head? = some hd → isDigitC hd = false := by decide
  have hemp : ((d :: rest) ++ (" months ago").data).isEmpty = false := rfl
  have hday : searchUnit ("day".data) ((d :: rest) ++ (" months ago").data) = none :=
    searchUnit_append_none _ _ _ hds hk_head (by decide) (by decide)
  have hweek : searchUnit ("week".data) ((d :: rest) ++ (" months ago").data) = none :=
    searchUnit_append_none _ _ _ hds hk_head (by decide) (by decide)
  have hmonth : searchUnit ("month".data) ((d :: rest) ++ (" months ago").data) =
      some (d :: rest) :=
    searchUnit_append_found _ d rest _ hds hk_head (by decide)
  unfold linkedinResolve
  rw [hemp]
  simp only [Bool.false_eq_true, if_false, hlow, hstrip, htoday, hjust, hyest, hhoursago,
    hminutesago, hemp, Bool.or_self, Bool.or_false]
  unfold linkedinRelative
  simp only [hday, hweek, hmonth]

theorem digit_cases (c : Char) (h : isDigitC c = true) :
    c = '0' ∨ c = '1' ∨ c = '2' ∨ c = '3' ∨ c = '4' ∨
      c = '5' ∨ c = '6' ∨ c = '7' ∨ c = '8' ∨ c = '9' := by
  rw [isDigitC_iff] at h
  have hc : Char.ofNat c.toNat = c := Char.ofNat_toNat c
  obtain ⟨h1, h2⟩ := h
  interval_cases hv : c.toNat <;> rw [← hc] <;> decide

/-- C1 counterexample: the claim promises a resolved date for every
reference date and every `N ≥ 1`, but with reference 0001-03-31 and
`N = 12` the rolled-back year is 0, `datetime` rejects it, the clamping
`except` branch re-raises, and no date is produced (both crawlers). -/
theorem c1_months_counterexample :
    validDT ⟨1, 3, 31, 0, 0⟩ = true ∧
      (rollover ((1 : Nat) : Int) (((3 : Nat) : Int) - ((12 : Nat) : Int))).1 = 0 ∧
      itviecResolve ("12 months ago".data) ⟨1, 3, 31, 0, 0⟩ = none ∧
      linkedinResolve ("12 months ago".data) ⟨1, 3, 31, 0, 0⟩ = none := by decide

/-- C1 (amended): for every digit string with value `N ≥ 1` and every
valid reference, as long as the rolled-back year is at least 1 (the
`datetime` range the code can represent), both parsers resolve
`N months ago` to exactly the claim's date: year and month from the
`month -= N` / `while month <= 0` rollover, and the reference day clamped
to the target month's last valid day under the Gregorian leap rule. -/
theorem c1_months_resolution (ds : List Char) (N : Nat) (ref : DT)
    (hds : ∀ c ∈ ds, isDigitC c = true) (hne : ds ≠ []) (hval : digitsVal ds = N)
    (hN : 1 ≤ N) (href : validDT ref = true)
    (hy : 1 ≤ (rollover (ref.year : Int) ((ref.month : Int) - (N : Int))).1) :
    itviecResolve (ds ++ (" months ago").data) ref =
        some ⟨(rollover (ref.year : Int) ((ref.month : Int) - (N : Int))).1.toNat,
          (rollover (ref.year : Int) ((ref.month : Int) - (N : Int))).2.toNat,
          min ref.day
            (daysInMonthI (rollover (ref.year : Int) ((ref.month : Int) - (N : Int))).1
              (rollover (ref.year : Int) ((ref.month : Int) - (N : Int))).2.toNat)⟩ ∧
      linkedinResolve (ds ++ (" months ago").data) ref =
        some ⟨(rollover (ref.year : Int) ((ref.month : Int) - (N : Int))).1.toNat,
          (rollover (ref.year : Int) ((ref.month : Int) - (N : Int))).2.toNat,
          min ref.day
            (daysInMonthI (rollover (ref.year : Int) ((ref.month : Int) - (N : Int))).1
              (rollover (ref.year : Int) ((ref.month : Int) - (N : Int))).2.toNat)⟩ := by
  subst hval
  constructor
  · rw [itviecResolve_monthsAgo ds hne hds]
    exact monthsBack_spec ref (digitsVal ds) href hy
  · rw [linkedinResolve_monthsAgo ds hne hds]
    exact monthsBack_spec ref (digitsVal ds) href hy

/-- C1 witness: `3 months ago` from 2024-03-31 resolves to 2023-12-31 in
both parsers (the spec's own test case, crossing a year boundary). -/
theorem c1_months_resolution_witness :
    (∀ c ∈ ("3".data), isDigitC c = true) ∧ ("3".data) ≠ [] ∧ digitsVal ("3".data) = 3 ∧
      validDT ⟨2024, 3, 31, 12, 0⟩ = true ∧
      1 ≤ (rollover ((2024 : Nat) : Int) (((3 : Nat) : Int) - ((3 : Nat) : Int))).1 ∧
      (itviecResolve ("3".data ++ (" months ago").data) ⟨2024, 3, 31, 12, 0⟩ =
          some ⟨(rollover ((2024 : Nat) : Int) (((3 : Nat) : Int) - ((3 : Nat) : Int))).1.toNat,
            (rollover ((2024 : Nat) : Int) (((3 : Nat) : Int) - ((3 : Nat) : Int))).2.toNat,
            min 31 (daysInMonthI
              (rollover ((2024 : Nat) : Int) (((3 : Nat) : Int) - ((3 : Nat) : Int))).1
              (rollover ((2024 : Nat) : Int) (((3 : Nat) : Int) - ((3 : Nat) : Int))).2.toNat)⟩ ∧
        linkedinResolve ("3".data ++ (" months ago").data) ⟨2024, 3, 31, 12, 0⟩ =
          some ⟨(rollover ((2024 : Nat) : Int) (((3 : Nat) : Int) - ((3 : Nat) : Int))).1.toNat,
            (rollover ((2024 : Nat) : Int) (((3 : Nat) : Int) - ((3 : Nat) : Int))).2.toNat,
            min 31 (daysInMonthI
              (rollover ((2024 : Nat) : Int) (((3 : Nat) : Int) - ((3 : Nat) : Int))).1
              (rollover ((2024 : Nat) : Int) (((3 : Nat) : Int) - ((3 : Nat) : Int))).2.toNat)⟩) :=
  ⟨by decide, by decide, by decide, by decide, by decide,
    c1_months_resolution ("3".data) 3 ⟨2024, 3, 31, 12, 0⟩ (by decide) (by decide) (by decide)
      (by decide) (by decide) (by decide)⟩

/-- C3 counterexample: the claim promises that `parse_posted_time` never
raises, but `6 months ago` resolved against the valid reference datetime
0001-06-15 rolls the year back to 0; `datetime(0, 12, 15)` raises
`ValueError`, the clamping branch raises again on `datetime(0, 12, 31)`,
and the exception escapes (both crawlers). -/
theorem c3_raise_counterexample :
    validDT ⟨1, 6, 15, 0, 0⟩ = true ∧
      Itviec.parse_posted_time "6 months ago" ⟨1, 6, 15, 0, 0⟩ = none ∧
      LinkedIn.parse_posted_time "6 months ago" ⟨1, 6, 15, 0, 0⟩ = none := by decide

/-- C3 (amended): on every input that matches none of the recognition
rules, both parsers return the reference's calendar date formatted
`YYYY-MM-DD` without raising; only recognized relative amounts that
resolve before year 1 can raise. -/
theorem c3_unrecognized_fallback (s : String) (ref : DT)
    (h1 : containsSub ("today".data) (cleanText s.data) = false)
    (h2 : containsSub ("just now".data) (cleanText s.data) = false)
    (h3 : containsSub ("yesterday".data) (cleanText s.data) = false)
    (h4 : dateSearch (cleanText s.data) = none)
    (h5 : searchUnit ("minute".data) (cleanText s.data) = none)
    (h6 : searchUnit ("hour".data) (cleanText s.data) = none)
    (h7 : searchUnit ("day".data) (cleanText s.data) = none)
    (h8 : searchUnit ("week".data) (cleanText s.data) = none)
    (h9 : searchUnit ("month".data) (cleanText s.data) = none)
    (h10 : searchUnit ("year".data) (cleanText s.data) = none)
    (h11 : containsSub ("today".data) (stripL (pyLowerL s.data)) = false)
    (h12 : containsSub ("just now".data) (stripL (pyLowerL s.data)) = false)
    (h13 : containsSub ("hours ago".data) (stripL (pyLowerL s.data)) = false)
    (h14 : containsSub ("minutes ago".data) (stripL (pyLowerL s.data)) = false)
    (h15 : containsSub ("yesterday".data) (stripL (pyLowerL s.data)) = false)
    (h16 : searchUnit ("day".data) (stripL (pyLowerL s.data)) = none)
    (h17 : searchUnit ("week".data) (stripL (pyLowerL s.data)) = none)
    (h18 : searchUnit ("month".data) (stripL (pyLowerL s.data)) = none)
    (h19 : searchUnit ("year".data) (stripL (pyLowerL s.data)) = none) :
    Itviec.parse_posted_time s ref = some (fmtDate ref.date) ∧
      LinkedIn.parse_posted_time s ref = some (fmtDate ref.date) := by
  constructor
  · by_cases hemp : s.data.isEmpty
    · simp [Itviec.parse_posted_time, itviecResolve, hemp]
    · by_cases hte : (cleanText s.data).isEmpty
      · simp [Itviec.parse_posted_time, itviecResolve, hemp, hte]
      · simp [Itviec.parse_posted_time, itviecResolve, itviecRelative, hemp, hte,
          h1, h2, h3, h4, h5, h6, h7, h8, h9, h10]
  · by_cases hemp : s.data.isEmpty
    · simp [LinkedIn.parse_posted_time, linkedinResolve, hemp]
    · by_cases hte : (stripL (pyLowerL s.data)).isEmpty
      · simp [LinkedIn.parse_posted_time, linkedinResolve, hemp, hte]
      · simp [LinkedIn.parse_posted_time, linkedinResolve, linkedinRelative, hemp, hte,
          h11, h12, h13, h14, h15, h16, h17, h18, h19]

/-- C3 amended witness: the unrecognized input `recently`. -/
theorem c3_unrecognized_fallback_witness :
    containsSub ("today".data) (cleanText ("recently").data) = false ∧
      dateSearch (cleanText ("recently").data) = none ∧
      searchUnit ("month".data) (cleanText ("recently").data) = none ∧
      (Itviec.parse_posted_time "recently" ⟨2024, 1, 2, 3, 4⟩ =
          some (fmtDate (DT.date ⟨2024, 1, 2, 3, 4⟩)) ∧
        LinkedIn.parse_posted_time "recently" ⟨2024, 1, 2, 3, 4⟩ =
          some (fmtDate (DT.date ⟨2024, 1, 2, 3, 4⟩))) :=
  ⟨by decide, by decide, by decide,
    c3_unrecognized_fallback "recently" ⟨2024, 1, 2, 3, 4⟩ (by decide) (by decide) (by decide)
      (by decide) (by decide) (by decide) (by decide) (by decide) (by decide) (by decide)
      (by decide) (by decide) (by decide) (by decide) (by decide) (by decide) (by decide)
      (by decide) (by decide)⟩

/-- C4 counterexample: the itviec parser checks the `today` keyword
before the literal date pattern, so an input holding both resolves to the
reference date, not to the claimed literal date (which the literal alone
does produce). -/
theorem c4_precedence_counterexample :
    Itviec.parse_posted_time "15/01/2023 today" ⟨2024, 3, 10, 12, 0⟩ = some "2024-03-10" ∧
      ("2024-03-10" : String) ≠ "2023-01-15" ∧
      Itviec.parse_posted_time "15/01/2023" ⟨2024, 3, 10, 12, 0⟩ = some "2023-01-15" := by
  decide

/-- C4 (amended): the keyword rules run before the literal date rule:
every input whose cleaned text contains `today` (or `just now`) resolves
to the reference date, and every remaining input containing `yesterday`
resolves through the yesterday rule, regardless of any parsable literal
date in the text. -/
theorem c4_keyword_precedence (s : String) (ref : DT) :
    (containsSub ("today".data) (cleanText s.data) = true →
        Itviec.parse_posted_time s ref = some (fmtDate ref.date)) ∧
      (containsSub ("just now".data) (cleanText s.data) = true →
        Itviec.parse_posted_time s ref = some (fmtDate ref.date)) ∧
      (containsSub ("today".data) (cleanText s.data) = false →
        containsSub ("just now".data) (cleanText s.data) = false →
        containsSub ("yesterday".data) (cleanText s.data) = true →
        Itviec.parse_posted_time s ref =
          (subMinutes ref 1440).map (fun t => fmtDate t.date)) := by
  refine ⟨?_, ?_, ?_⟩
  · intro h
    by_cases hemp : s.data.isEmpty
    · simp [Itviec.parse_posted_time, itviecResolve, hemp]
    · simp [Itviec.parse_posted_time, itviecResolve, hemp, h]
  · intro h
    by_cases hemp : s.data.isEmpty
    · simp [Itviec.parse_posted_time, itviecResolve, hemp]
    · simp [Itviec.parse_posted_time, itviecResolve, hemp, h]
  · intro h1 h2 h3
    have hte : (cleanText s.data).isEmpty = false := by
      cases hcl : cleanText s.data with
      | nil => rw [hcl] at h3; exact Bool.noConfusion h3
      | cons a l => rfl
    have hemp : s.data.isEmpty = false := by
      cases hs : s.data with
      | nil =>
        rw [show cleanText s.data = [] from by rw [hs]; rfl] at h3
        exact Bool.noConfusion h3
      | cons a l => rfl
    simp [Itviec.parse_posted_time, itviecResolve, hemp, hte, h1, h2, h3, Option.map_map]
    rfl

/-- C4 amended witness: `15/01/2023 today` resolves to the reference
2024-03-10 although it contains a parsable literal date. -/
theorem c4_keyword_precedence_witness :
    containsSub ("today".data) (cleanText ("15/01/2023 today").data) = true ∧
      Itviec.parse_posted_time "15/01/2023 today" ⟨2024, 3, 10, 12, 0⟩ =
        some (fmtDate (DT.date ⟨2024, 3, 10, 12, 0⟩)) :=
  ⟨by decide,
    (c4_keyword_precedence "15/01/2023 today" ⟨2024, 3, 10, 12, 0⟩).1 (by decide)⟩

/-- C7: in the literal date rule, a 2-digit year `y` maps to `2000+y`
when `y < 50` and to `1900+y` otherwise, and a matched literal that is
not a valid calendar date does not raise but falls through to the
relative-time rules — reaching a later relative rule when one matches and
the reference date when none does. -/
theorem c7_two_digit_years (ref : DT) (href : validDT ref = true) :
    (∀ c1 c2 : Char, isDigitC c1 = true → isDigitC c2 = true →
        Itviec.parse_posted_time (String.mk ("15/01/".data ++ [c1, c2])) ref =
          some (fmtDate ⟨(if 10 * digitVal c1 + digitVal c2 < 50
              then 2000 + (10 * digitVal c1 + digitVal c2)
              else 1900 + (10 * digitVal c1 + digitVal c2)), 1, 15⟩)) ∧
      Itviec.parse_posted_time "32/01/2023" ref = some (fmtDate ref.date) ∧
      Itviec.parse_posted_time "32/01/2023 2 months ago" ⟨2024, 3, 10, 12, 0⟩ =
        some "2024-01-10" := by
  refine ⟨?_, rfl, by decide⟩
  intro c1 c2 h1 h2
  rcases digit_cases c1 h1 with rfl | rfl | rfl | rfl | rfl | rfl | rfl | rfl | rfl | rfl <;>
    rcases digit_cases c2 h2 with rfl | rfl | rfl | rfl | rfl | rfl | rfl | rfl | rfl | rfl <;>
      rfl

/-- C7 witness: the spec's boundary years `49` and `50`. -/
theorem c7_two_digit_years_witness :
    validDT ⟨2024, 3, 10, 12, 0⟩ = true ∧ isDigitC '4' = true ∧ isDigitC '9' = true ∧
      Itviec.parse_posted_time (String.mk ("15/01/".data ++ ['4', '9'])) ⟨2024, 3, 10, 12, 0⟩ =
        some (fmtDate ⟨(if 10 * digitVal '4' + digitVal '9' < 50
            then 2000 + (10 * digitVal '4' + digitVal '9')
            else 1900 + (10 * digitVal '4' + digitVal '9')), 1, 15⟩) ∧
      Itviec.parse_posted_time (String.mk ("15/01/".data ++ ['5', '0'])) ⟨2024, 3, 10, 12, 0⟩ =
        some (fmtDate ⟨(if 10 * digitVal '5' + digitVal '0' < 50
            then 2000 + (10 * digitVal '5' + digitVal '0')
            else 1900 + (10 * digitVal '5' + digitVal '0')), 1, 15⟩) :=
  ⟨by decide, by decide, by decide,
    (c7_two_digit_years ⟨2024, 3, 10, 12, 0⟩ (by decide)).1 '4' '9' (by decide) (by decide),
    (c7_two_digit_years ⟨2024, 3, 10, 12, 0⟩ (by decide)).1 '5' '0' (by decide) (by decide)⟩
